import Mathlib

/-!
Verification development for the `namedzone` projection/synchronization engine
(pkg/namedzone: load.go, types.go, api.go, parse_helpers.go, helpers.go).

The engine is embedded shallowly: every Go function that the claims touch is
translated into an executable Lean definition operating on an explicit CST
node list.  Go strings are Lean `String`s, manipulated through faithful
models of the `strings`/`strconv` standard-library routines the source uses
(ASCII inputs, so Go byte indices coincide with character indices).

The external CST library `github.com/dlukt/namedconf` is not part of this
repository.  Its data type and the three constructors the engine uses are
modelled from the spec, see `Node`, `mkSimpleStmt`, `mkBlockStmt`.
-/

namespace Namedzone

/-- Whitespace test matching Go `unicode.IsSpace` on the ASCII range used by
the configuration dialect. -/
def isWS (c : Char) : Bool :=
  c = ' ' || c = '\t' || c = '\n' || c = '\x0b' || c = '\x0c' || c = '\r'

/-- Go `strings.TrimSpace` (character-list core). -/
def trimSpaceL (l : List Char) : List Char :=
  ((l.dropWhile isWS).reverse.dropWhile isWS).reverse

/-- Go `strings.TrimSpace`. -/
def goTrimSpace (s : String) : String := String.mk (trimSpaceL s.data)

/-- Go `strings.Trim` with an arbitrary cutset: removes leading and trailing
characters that belong to `cut`. -/
def goTrim (s cut : String) : String :=
  let inCut : Char → Bool := fun c => cut.data.contains c
  String.mk (((s.data.dropWhile inCut).reverse.dropWhile inCut).reverse)

/-- Go `strings.HasPrefix`. -/
def goHasPre (s pre : String) : Bool := pre.data.isPrefixOf s.data

/-- Go `strings.HasSuffix`. -/
def goHasSuf (s suf : String) : Bool := suf.data.isSuffixOf s.data

/-- Go `strings.TrimPrefix`. -/
def goTrimPre (s pre : String) : String :=
  if goHasPre s pre then String.mk (s.data.drop pre.data.length) else s

/-- Go `strings.TrimSuffix`. -/
def goTrimSuf (s suf : String) : String :=
  if goHasSuf s suf then String.mk (s.data.take (s.data.length - suf.data.length)) else s

/-- Index of the first occurrence of `sub` in `l` (Go `strings.Index` core);
`none` when absent. -/
def listIdxOf : List Char → List Char → Option Nat
  | l, sub =>
    if sub.isPrefixOf l then some 0
    else match l with
      | [] => none
      | _ :: rest => (listIdxOf rest sub).map (· + 1)

/-- Go `strings.Index`, as an `Option` instead of `-1`. -/
def goIndexOf (s sub : String) : Option Nat := listIdxOf s.data sub.data

/-- Go `strings.Contains`. -/
def goContains (s sub : String) : Bool := (goIndexOf s sub).isSome

/-- Go `strings.ContainsAny`. -/
def goContainsAny (s chars : String) : Bool :=
  s.data.any (fun c => chars.data.contains c)

/-- Go `strings.Count` for a single-character needle (the only form the
source uses: counting `:` and `.`). -/
def goCountChar (s : String) (c : Char) : Nat := s.data.count c

/-- Character-list core of Go `strings.Split` for a non-empty separator.
Every step consumes at least one character, so the structural fuel (the input
length, supplied by `goSplit`) is always adequate. -/
def splitGo (sep : List Char) : Nat → List Char → List Char → List (List Char)
  | _, acc, [] => [acc.reverse]
  | 0, acc, l => [acc.reverse ++ l]
  | fuel + 1, acc, c :: rest =>
    if sep.isPrefixOf (c :: rest) then
      acc.reverse :: splitGo sep fuel [] (rest.drop (sep.length - 1))
    else
      splitGo sep fuel (c :: acc) rest

/-- Go `strings.Split`. -/
def goSplit (s sep : String) : List String :=
  (splitGo sep.data s.data.length [] s.data).map String.mk

/-- Character-list core of Go `strings.Fields`: split on runs of whitespace,
dropping empty pieces. -/
def fieldsGo (acc : List Char) : List Char → List (List Char)
  | [] => if acc.isEmpty then [] else [acc.reverse]
  | c :: rest =>
    if isWS c then
      if acc.isEmpty then fieldsGo [] rest else acc.reverse :: fieldsGo [] rest
    else
      fieldsGo (c :: acc) rest

/-- Go `strings.Fields`. -/
def goFields (s : String) : List String := (fieldsGo [] s.data).map String.mk

/-- ASCII lowering of one character (Go `strings.ToLower` on ASCII tokens). -/
def lowerChar (c : Char) : Char :=
  if 'A' ≤ c && c ≤ 'Z' then Char.ofNat (c.toNat + 32) else c

/-- Go `strings.ToLower` restricted to ASCII, as used on `yes`/`no` words. -/
def goToLower (s : String) : String := String.mk (s.data.map lowerChar)

/-- Go `strconv.Atoi`: optional sign followed by at least one digit, nothing
else.  Overflow is not modelled (configuration numbers are small). -/
def goAtoi? (s : String) : Option Int :=
  let digitsVal : List Char → Option Int := fun ds =>
    if ds.isEmpty || !(ds.all Char.isDigit) then none
    else some (ds.foldl (fun a c => a * 10 + (Int.ofNat (c.toNat - 48))) 0)
  match s.data with
  | '+' :: ds => digitsVal ds
  | '-' :: ds => (digitsVal ds).map Int.neg
  | ds => digitsVal ds

/-- Go `strconv.Itoa`. -/
def goItoa (n : Int) : String := toString n

/-- Drop the first `n` characters (Go slice `s[n:]` on ASCII input). -/
def strDrop (s : String) (n : Nat) : String := String.mk (s.data.drop n)

/-- Keep the first `n` characters (Go slice `s[:n]` on ASCII input). -/
def strTake (s : String) (n : Nat) : String := String.mk (s.data.take n)

-- ---------------------------------------------------------------------------
-- CST node model (external collaborator `github.com/dlukt/namedconf`)
-- ---------------------------------------------------------------------------

/-- Modelled from the spec: a CST node is either a `Statement` carrying a
keyword, its raw header text (the complete header, keyword included, which is
what losslessness and the engine's own header scanners require) and an ordered
body node list, or an opaque `RawFragment` of text. -/
inductive Node where
  | stmt (keyword : String) (headRaw : String) (body : List Node)
  | raw (text : String)

mutual

/-- Decidable equality for CST nodes (hand-rolled: the deriving handler does
not support the nested `List Node`). -/
def nodeDecEq : (a b : Node) → Decidable (a = b)
  | .stmt k1 h1 b1, .stmt k2 h2 b2 =>
    match decEq k1 k2 with
    | isFalse hn => isFalse (by intro he; cases he; exact hn rfl)
    | isTrue hk =>
      match decEq h1 h2 with
      | isFalse hn => isFalse (by intro he; cases he; exact hn rfl)
      | isTrue hh =>
        match nodeListDecEq b1 b2 with
        | isFalse hn => isFalse (by intro he; cases he; exact hn rfl)
        | isTrue hb => isTrue (by rw [hk, hh, hb])
  | .stmt _ _ _, .raw _ => isFalse (by intro he; cases he)
  | .raw _, .stmt _ _ _ => isFalse (by intro he; cases he)
  | .raw t1, .raw t2 =>
    match decEq t1 t2 with
    | isFalse hn => isFalse (by intro he; cases he; exact hn rfl)
    | isTrue ht => isTrue (by rw [ht])

/-- Decidable equality for CST node lists. -/
def nodeListDecEq : (a b : List Node) → Decidable (a = b)
  | [], [] => isTrue rfl
  | [], _ :: _ => isFalse (by intro he; cases he)
  | _ :: _, [] => isFalse (by intro he; cases he)
  | a :: as, b :: bs =>
    match nodeDecEq a b with
    | isFalse hn => isFalse (by intro he; cases he; exact hn rfl)
    | isTrue h1 =>
      match nodeListDecEq as bs with
      | isFalse hn => isFalse (by intro he; cases he; exact hn rfl)
      | isTrue h2 => isTrue (by rw [h1, h2])

end

instance : DecidableEq Node := nodeDecEq

/-- Modelled from the spec: the file object of the external CST library; an
ordered node list (the `write back to storage` operation is modelled in
`Config.save`). -/
structure File where
  nodes : List Node
deriving DecidableEq

/-- Modelled from the spec: the keyword of a built statement is the first
whitespace-delimited token of its header text. -/
def headKeyword (s : String) : String :=
  String.mk ((s.data.dropWhile isWS).takeWhile (fun c => !isWS c))

/-- Modelled from the spec: `nc.NewSimpleStmt` builds a single-line statement
from one line of text. -/
def mkSimpleStmt (line : String) : Node := .stmt (headKeyword line) line []

/-- Modelled from the spec: `nc.NewBlockStmt` builds a statement from a header
string and a body node list. -/
def mkBlockStmt (head : String) (body : List Node) : Node :=
  .stmt (headKeyword head) head body

/-- The keyword of a node, when it is a statement. -/
def nodeKw : Node → Option String
  | .stmt k _ _ => some k
  | .raw _ => none

-- ---------------------------------------------------------------------------
-- Domain model (types.go).  The per-entity `stmt` back-references of the Go
-- structs are never read by the engine (decode only writes them, encode
-- rebuilds nodes from scratch), so they are omitted; the `Config.ast`
-- back-reference is kept because `Apply` and `Save` consult it.
-- ---------------------------------------------------------------------------

/-- `MatchTerm` (types.go): one node of an address-match expression.  The
field `not` is Go `Not`, `klassless` renamings follow the JSON tags. -/
inductive MatchTerm where
  | mk (not : Bool) (address : String) (key : String) (aclRef : String)
       (nested : List MatchTerm)

mutual

/-- Decidable equality for match terms (nested inductive, hand-rolled). -/
def mtDecEq : (a b : MatchTerm) → Decidable (a = b)
  | .mk n1 a1 k1 r1 s1, .mk n2 a2 k2 r2 s2 =>
    match decEq n1 n2 with
    | isFalse hn => isFalse (by intro he; cases he; exact hn rfl)
    | isTrue h1 =>
      match decEq a1 a2 with
      | isFalse hn => isFalse (by intro he; cases he; exact hn rfl)
      | isTrue h2 =>
        match decEq k1 k2 with
        | isFalse hn => isFalse (by intro he; cases he; exact hn rfl)
        | isTrue h3 =>
          match decEq r1 r2 with
          | isFalse hn => isFalse (by intro he; cases he; exact hn rfl)
          | isTrue h4 =>
            match mtListDecEq s1 s2 with
            | isFalse hn => isFalse (by intro he; cases he; exact hn rfl)
            | isTrue h5 => isTrue (by rw [h1, h2, h3, h4, h5])

/-- Decidable equality for match-term lists. -/
def mtListDecEq : (a b : List MatchTerm) → Decidable (a = b)
  | [], [] => isTrue rfl
  | [], _ :: _ => isFalse (by intro he; cases he)
  | _ :: _, [] => isFalse (by intro he; cases he)
  | a :: as, b :: bs =>
    match mtDecEq a b with
    | isFalse hn => isFalse (by intro he; cases he; exact hn rfl)
    | isTrue h1 =>
      match mtListDecEq as bs with
      | isFalse hn => isFalse (by intro he; cases he; exact hn rfl)
      | isTrue h2 => isTrue (by rw [h1, h2])

end

instance : DecidableEq MatchTerm := mtDecEq

/-- Projection: Go `MatchTerm.Not`. -/
def MatchTerm.not : MatchTerm → Bool | .mk b _ _ _ _ => b

/-- Projection: Go `MatchTerm.Address`. -/
def MatchTerm.address : MatchTerm → String | .mk _ a _ _ _ => a

/-- Projection: Go `MatchTerm.Key`. -/
def MatchTerm.key : MatchTerm → String | .mk _ _ k _ _ => k

/-- Projection: Go `MatchTerm.ACLRef`. -/
def MatchTerm.aclRef : MatchTerm → String | .mk _ _ _ r _ => r

/-- Projection: Go `MatchTerm.Nested`. -/
def MatchTerm.nested : MatchTerm → List MatchTerm | .mk _ _ _ _ s => s

/-- `Include` (types.go). -/
structure Include where
  path : String := ""
deriving DecidableEq

/-- `ACL` (types.go). -/
structure ACL where
  name : String := ""
  elements : List MatchTerm := []
deriving DecidableEq

/-- `Key` (types.go): TSIG/rndc key block. -/
structure Key where
  name : String := ""
  algorithm : String := ""
  secret : String := ""
deriving DecidableEq

/-- `KeyStore` (types.go). -/
structure KeyStore where
  name : String := ""
  pkcs11URI : String := ""
deriving DecidableEq

/-- `RemoteServerItem` (types.go). -/
structure RemoteServerItem where
  address : String := ""
  port : Option Int := none
  key : String := ""
  tls : String := ""
deriving DecidableEq

/-- `RemoteServers` (types.go): reusable named server list. -/
structure RemoteServers where
  name : String := ""
  servers : List RemoteServerItem := []
deriving DecidableEq

/-- `TLS` (types.go). -/
structure TLS where
  name : String := ""
  caFile : String := ""
  certFile : String := ""
  keyFile : String := ""
  cipherSuites : String := ""
  ciphers : String := ""
  dhparamFile : String := ""
  preferServer : Option Bool := none
  protocols : List String := []
  remoteHost : String := ""
  sessionTickets : Option Bool := none
deriving DecidableEq

/-- `HTTP` (types.go). -/
structure HTTP where
  name : String := ""
  endpoints : List String := []
  listenerClients : Option Int := none
  streamsPerConnection : Option Int := none
deriving DecidableEq

/-- `ControlInet` (types.go). -/
structure ControlInet where
  address : String := ""
  port : Option Int := none
  allow : List MatchTerm := []
  keys : List String := []
  readOnly : Option Bool := none
deriving DecidableEq

/-- `ControlUnix` (types.go). -/
structure ControlUnix where
  path : String := ""
  perm : Int := 0
  owner : Int := 0
  group : Int := 0
  keys : List String := []
  readOnly : Option Bool := none
deriving DecidableEq

/-- `Controls` (types.go). -/
structure Controls where
  inet : List ControlInet := []
  unix : List ControlUnix := []
deriving DecidableEq

/-- `LogFileDest` (types.go). -/
structure LogFileDest where
  path : String := ""
  versions : Option Int := none
  size : String := ""
  suffix : String := ""
  severity : String := ""
deriving DecidableEq

/-- `LogSyslogDest` (types.go). -/
structure LogSyslogDest where
  facility : String := ""
deriving DecidableEq

/-- `LogChannel` (types.go). -/
structure LogChannel where
  name : String := ""
  file : Option LogFileDest := none
  syslog : Option LogSyslogDest := none
  stderr : Bool := false
  null : Bool := false
  severity : String := ""
  printTime : Option Bool := none
  printCategory : Option Bool := none
  printSeverity : Option Bool := none
  buffered : Option Bool := none
deriving DecidableEq

/-- `LogCategory` (types.go). -/
structure LogCategory where
  name : String := ""
  channels : List String := []
deriving DecidableEq

/-- `Logging` (types.go). -/
structure Logging where
  channels : List LogChannel := []
  categories : List LogCategory := []
deriving DecidableEq

/-- `RRsetOrder` (types.go). -/
structure RRsetOrder where
  name : String := ""
  rrType : String := ""
  order : String := ""
deriving DecidableEq

/-- `RawKV` (types.go): one overflow-bag entry of `Options.Other`. -/
structure RawKV where
  name : String := ""
  raw : String := ""
deriving DecidableEq

/-- `Listen` (types.go). -/
structure Listen where
  port : Option Int := none
  tls : String := ""
  http : String := ""
  addrs : List MatchTerm := []
deriving DecidableEq

/-- `Forwarder` (types.go). -/
structure Forwarder where
  address : String := ""
  port : Option Int := none
  tls : String := ""
deriving DecidableEq

/-- `Options` (types.go): modeled global tunables plus the overflow bag
`other` (Go `Other`). -/
structure Options where
  directory : String := ""
  recursion : Option Bool := none
  allowQuery : List MatchTerm := []
  allowTransfer : List MatchTerm := []
  allowUpdate : List MatchTerm := []
  listenOn : Option Listen := none
  listenOnV6 : Option Listen := none
  forwarders : List Forwarder := []
  forward : String := ""
  dnssecValidation : String := ""
  rrsetOrder : List RRsetOrder := []
  other : List RawKV := []
deriving DecidableEq

/-- `TrustAnchorItem` (types.go). -/
structure TrustAnchorItem where
  name : String := ""
  ds : String := ""
  dnskey : String := ""
deriving DecidableEq

/-- `TrustAnchors` (types.go). -/
structure TrustAnchors where
  items : List TrustAnchorItem := []
deriving DecidableEq

/-- `ZoneType` (types.go) is a plain string enumeration. -/
abbrev ZoneType := String

/-- `Zone` (types.go); `klass` is Go `Class`, `ztype` is Go `Type`. -/
structure Zone where
  name : String := ""
  klass : String := ""
  ztype : ZoneType := ""
  file : String := ""
  primariesRef : String := ""
  primaries : List RemoteServerItem := []
  forwarders : List Forwarder := []
  forward : String := ""
  allowUpdate : List MatchTerm := []
  allowTransfer : List MatchTerm := []
  alsoNotify : List RemoteServerItem := []
  dnssecPolicy : String := ""
deriving DecidableEq

/-- `View` (types.go); `klass` is Go `Class`. -/
structure View where
  name : String := ""
  klass : String := ""
  matchClients : List MatchTerm := []
  matchDestinations : List MatchTerm := []
  recursion : Option Bool := none
  trustAnchors : Option TrustAnchors := none
  zones : List Zone := []
  includes : List Include := []
deriving DecidableEq

/-- `Config` (types.go): the configuration root; `ast` is the weak
back-reference to the originating CST file. -/
structure Config where
  includes : List Include := []
  acls : List ACL := []
  keys : List Key := []
  keyStores : List KeyStore := []
  remoteServers : List RemoteServers := []
  tls : List TLS := []
  http : List HTTP := []
  controls : Option Controls := none
  logging : Option Logging := none
  options : Option Options := none
  trustAnchors : List TrustAnchors := []
  views : List View := []
  zones : List Zone := []
  ast : Option File := none
deriving DecidableEq

-- ---------------------------------------------------------------------------
-- Sub-grammar codecs (parse_helpers.go)
-- ---------------------------------------------------------------------------

/-- `trimQuotes` (parse_helpers.go): trim whitespace, then trim `"` characters
from both ends. -/
def trimQuotes (s : String) : String := goTrim (goTrimSpace s) ("\"")

/-- `boolWord` (parse_helpers.go). -/
def boolWord (b : Bool) : String := if b then "yes" else "no"

/-- `quoteEach` (parse_helpers.go). -/
def quoteEach (ss : List String) : List String :=
  ss.map (fun s => "\"" ++ s ++ "\"")

/-- `parseBoolPtr` (parse_helpers.go): first field, lowered; `yes`/`no` or
absent. -/
def parseBoolPtr (raw : String) : Option Bool :=
  match goFields raw with
  | [] => none
  | w :: _ =>
    if goToLower w = "yes" then some true
    else if goToLower w = "no" then some false
    else none

/-- `parseIntPtr` (parse_helpers.go). -/
def parseIntPtr (raw : String) : Option Int :=
  match goFields raw with
  | [] => none
  | w :: _ => goAtoi? w

/-- `parseStringList` (parse_helpers.go). -/
def parseStringList (raw0 : String) : List String :=
  let raw1 := goTrimSpace raw0
  let raw := if goHasPre raw1 ("\x7b") then goTrimSuf (goTrimPre raw1 ("\x7b")) ("\x7d") else raw1
  (goSplit raw (";")).filterMap (fun q =>
    let p := goTrimSpace q
    if p = "" then none else some (trimQuotes p))

/-- `[a-z-]` character class of `rxHeadName`/`rxHeadClass`. -/
def isLowerDash (c : Char) : Bool := ('a' ≤ c && c ≤ 'z') || c = '-'

/-- `[A-Za-z]` character class of `rxHeadClass`. -/
def isAlphaAZ (c : Char) : Bool := ('A' ≤ c && c ≤ 'Z') || ('a' ≤ c && c ≤ 'z')

/-- Anchored matcher for `rxHeadName` (parse_helpers.go), the regular
expression `^[a-z-]+\s+"([^"]+)"`; returns the capture group. -/
def rxHeadNameMatch? (s : String) : Option String :=
  let cs := s.data
  let kw := cs.takeWhile isLowerDash
  if kw.isEmpty then none
  else
    let r1 := cs.drop kw.length
    let sp := r1.takeWhile isWS
    if sp.isEmpty then none
    else
      match r1.drop sp.length with
      | '"' :: r2 =>
        let nm := r2.takeWhile (fun c => !(c = '"'))
        if nm.isEmpty then none
        else
          match r2.drop nm.length with
          | '"' :: _ => some (String.mk nm)
          | _ => none
      | _ => none

/-- Anchored matcher for `rxHeadClass` (parse_helpers.go), the regular
expression `^[a-z-]+\s+"[^"]+"\s+([A-Za-z]+)`; returns the capture group. -/
def rxHeadClassMatch? (s : String) : Option String :=
  let cs := s.data
  let kw := cs.takeWhile isLowerDash
  if kw.isEmpty then none
  else
    let r1 := cs.drop kw.length
    let sp := r1.takeWhile isWS
    if sp.isEmpty then none
    else
      match r1.drop sp.length with
      | '"' :: r2 =>
        let nm := r2.takeWhile (fun c => !(c = '"'))
        if nm.isEmpty then none
        else
          match r2.drop nm.length with
          | '"' :: r3 =>
            let sp2 := r3.takeWhile isWS
            if sp2.isEmpty then none
            else
              let cls := (r3.drop sp2.length).takeWhile isAlphaAZ
              if cls.isEmpty then none else some (String.mk cls)
          | _ => none
      | _ => none

/-- `headNameAfter` (parse_helpers.go); the Go `kw` parameter is unused in the
source and therefore omitted. -/
def headNameAfter (headRaw : String) : String :=
  let h := goTrimSpace headRaw
  match rxHeadNameMatch? h with
  | some m => m
  | none =>
    match goFields h with
    | _ :: f1 :: _ => trimQuotes f1
    | _ => ""

/-- `headClassAfter` (parse_helpers.go); the Go `kw` parameter is unused in
the source and therefore omitted. -/
def headClassAfter (headRaw : String) : String :=
  let h := goTrimSpace headRaw
  match rxHeadClassMatch? h with
  | some m => m
  | none => ""

/-- Field scanner of `parseRRsetOrder` (parse_helpers.go): `type`, `name` and
`order` keyword/value pairs, unknown words skipped. -/
def rrScan : RRsetOrder → List String → RRsetOrder
  | ro, [] => ro
  | ro, w :: rest =>
    if w = "type" then
      match rest with
      | v :: r2 => rrScan { ro with rrType := v } r2
      | [] => ro
    else if w = "name" then
      match rest with
      | v :: r2 => rrScan { ro with name := trimQuotes v } r2
      | [] => ro
    else if w = "order" then
      match rest with
      | v :: r2 => rrScan { ro with order := v } r2
      | [] => ro
    else rrScan ro rest

/-- `parseRRsetOrder` (parse_helpers.go), taking the statement body. -/
def parseRRsetOrder (body : List Node) : List RRsetOrder :=
  match body with
  | .raw t :: _ =>
    let txt := goTrimSpace t
    (goSplit txt (";")).filterMap (fun q =>
      let p := goTrimSpace q
      if p = "" then none
      else
        let f := goFields p
        let ro := rrScan {} f
        some (if ro.order = "" && !f.isEmpty then { ro with order := f.getLastD "" } else ro))
  | _ => []

/-- `serializeRRsetOrder` (parse_helpers.go). -/
def serializeRRsetOrder (list : List RRsetOrder) : String :=
  String.intercalate ("; ")
    (list.map (fun ro =>
      String.intercalate (" ")
        ((if ro.rrType ≠ "" then ["type " ++ ro.rrType] else []) ++
         (if ro.name ≠ "" then ["name \"" ++ ro.name ++ "\""] else []) ++
         ["order " ++ ro.order]))) ++ ";"

/-- `needsQuotes` (parse_helpers.go): true when the name contains one of
`.`, `-`, `*` or a space. -/
def needsQuotes (s : String) : Bool := goContainsAny s (".-* ")

/-- Recursion core of `parseMatchListFromBodyRaw` (parse_helpers.go).  The
source recurses on a brace-led segment of the semicolon split; each such
segment is strictly shorter than the input, so a fuel of the input length
plus one (supplied by `parseMatchListFromBodyRaw`) always suffices. -/
def parseMLAux : Nat → String → List MatchTerm
  | 0, _ => []
  | fuel + 1, raw0 =>
    let raw1 := goTrimSpace raw0
    let raw :=
      if goHasPre raw1 ("\x7b") then
        goTrimSpace (goTrimSuf (goTrimPre raw1 ("\x7b")) ("\x7d"))
      else raw1
    (goSplit raw (";")).flatMap (fun q =>
      let p0 := goTrimSpace q
      if p0 = "" then []
      else
        let pr :=
          if goHasPre p0 ("!") then (true, goTrimSpace (goTrimPre p0 ("!")))
          else (false, p0)
        let ng := pr.1
        let p := pr.2
        if goHasPre p ("key ") then
          [MatchTerm.mk ng "" (trimQuotes (goTrimPre p ("key "))) "" []]
        else if goHasPre p ("\x7b") then
          [MatchTerm.mk ng "" "" "" (parseMLAux fuel p)]
        else if goContains p ("/") || goCountChar p ':' > 1 || goCountChar p '.' = 3 then
          [MatchTerm.mk ng p "" "" []]
        else
          [MatchTerm.mk ng "" "" (trimQuotes p) []])

/-- `parseMatchListFromBodyRaw` (parse_helpers.go). -/
def parseMatchListFromBodyRaw (raw : String) : List MatchTerm :=
  parseMLAux (raw.data.length + 1) raw

/-- `parseMatchList` (parse_helpers.go). -/
def parseMatchList (raw : String) : List MatchTerm :=
  if !goContains raw ("\x7b") then [] else parseMatchListFromBodyRaw raw

/-- `parseMatchListFromBody` (parse_helpers.go), taking the statement body. -/
def parseMatchListFromBody (body : List Node) : List MatchTerm :=
  match body with
  | [] => []
  | .raw t :: _ => parseMatchListFromBodyRaw t
  | _ =>
    body.filterMap (fun n =>
      match n with
      | .stmt _ hr _ => some (MatchTerm.mk false (goTrimSpace (goTrimSuf hr (";"))) "" "" [])
      | .raw _ => none)

mutual

/-- One element of `serializeMatchList` (parse_helpers.go): negation bang,
then nested list / key reference / literal address / ACL reference, in the
source's switch order. -/
def serializeTerm : MatchTerm → String
  | .mk n addr k acl nested =>
    (if n then "!" else "") ++
    (if !nested.isEmpty then "\x7b " ++ serializeTerms nested ++ " \x7d"
     else if k ≠ "" then "key \"" ++ k ++ "\""
     else if addr ≠ "" then addr
     else if acl ≠ "" then (if needsQuotes acl then "\"" ++ acl ++ "\"" else acl)
     else "")

/-- Element run of `serializeMatchList` (parse_helpers.go): every element is
terminated by `;`, elements after the first are preceded by a space. -/
def serializeTerms : List MatchTerm → String
  | [] => ""
  | [t] => serializeTerm t ++ ";"
  | t :: rest => serializeTerm t ++ "; " ++ serializeTerms rest

end

/-- `serializeMatchList` (parse_helpers.go). -/
def serializeMatchList (terms : List MatchTerm) : String :=
  "\x7b " ++ serializeTerms terms ++ " \x7d"

/-- Field scanner of `parseListen` (parse_helpers.go): `port`, `tls`, `http`
keyword/value pairs. -/
def listenScan : Listen → List String → Listen
  | L, [] => L
  | L, w :: rest =>
    if w = "port" then
      match rest with
      | v :: r2 =>
        listenScan (match goAtoi? v with | some n => { L with port := some n } | none => L) r2
      | [] => L
    else if w = "tls" then
      match rest with
      | v :: r2 => listenScan { L with tls := trimQuotes v } r2
      | [] => L
    else if w = "http" then
      match rest with
      | v :: r2 => listenScan { L with http := trimQuotes v } r2
      | [] => L
    else listenScan L rest

/-- `parseListen` (parse_helpers.go). -/
def parseListen (raw0 : String) : Listen :=
  let st :=
    match goIndexOf raw0 ("\x7b") with
    | some lb =>
      (goTrimSpace (strTake raw0 lb), parseMatchListFromBodyRaw (goTrimSpace (strDrop raw0 lb)))
    | none => (raw0, [])
  listenScan { addrs := st.2 } (goFields st.1)

/-- `serializeListen` (parse_helpers.go). -/
def serializeListen (l : Listen) : String :=
  let pre :=
    (match l.port with | some n => ["port " ++ goItoa n] | none => []) ++
    (if l.tls ≠ "" then ["tls \"" ++ l.tls ++ "\""] else []) ++
    (if l.http ≠ "" then ["http \"" ++ l.http ++ "\""] else [])
  goTrimSpace (String.intercalate (" ") pre) ++ " " ++ serializeMatchList l.addrs

/-- Field scanner of `parseForwarders` (parse_helpers.go): `port` and `tls`
keyword/value pairs after the address. -/
def fwdScan : Forwarder → List String → Forwarder
  | it, [] => it
  | it, w :: rest =>
    if w = "port" then
      match rest with
      | v :: r2 =>
        fwdScan (match goAtoi? v with | some n => { it with port := some n } | none => it) r2
      | [] => it
    else if w = "tls" then
      match rest with
      | v :: r2 => fwdScan { it with tls := trimQuotes v } r2
      | [] => it
    else fwdScan it rest

/-- `parseForwarders` (parse_helpers.go). -/
def parseForwarders (raw0 : String) : List Forwarder :=
  let raw1 := goTrimSpace raw0
  let raw :=
    if goHasPre raw1 ("\x7b") then
      goTrimSpace (goTrimSuf (goTrimPre raw1 ("\x7b")) ("\x7d"))
    else raw1
  (goSplit raw (";")).filterMap (fun q =>
    let p := goTrimSpace q
    if p = "" then none
    else
      match goFields p with
      | [] => none
      | f0 :: rest => some (fwdScan { address := f0 } rest))

/-- `serializeForwarders` (parse_helpers.go). -/
def serializeForwarders (ff : List Forwarder) : String :=
  "\x7b " ++
    String.intercalate ("; ")
      (ff.map (fun f =>
        f.address ++
        (match f.port with | some n => " port " ++ goItoa n | none => "") ++
        (if f.tls ≠ "" then " tls \"" ++ f.tls ++ "\"" else ""))) ++
  "; \x7d"

/-- Field scanner of `parseRemoteServerItem` (parse_helpers.go): `port`,
`key` and `tls` keyword/value pairs after the address. -/
def rsiScan : RemoteServerItem → List String → RemoteServerItem
  | it, [] => it
  | it, w :: rest =>
    if w = "port" then
      match rest with
      | v :: r2 =>
        rsiScan (match goAtoi? v with | some n => { it with port := some n } | none => it) r2
      | [] => it
    else if w = "key" then
      match rest with
      | v :: r2 => rsiScan { it with key := trimQuotes v } r2
      | [] => it
    else if w = "tls" then
      match rest with
      | v :: r2 => rsiScan { it with tls := trimQuotes v } r2
      | [] => it
    else rsiScan it rest

/-- `parseRemoteServerItem` (parse_helpers.go). -/
def parseRemoteServerItem (raw : String) : RemoteServerItem :=
  match goFields raw with
  | [] => {}
  | f0 :: rest => rsiScan { address := f0 } rest

/-- `serializeRemoteServerItem` (parse_helpers.go). -/
def serializeRemoteServerItem (it : RemoteServerItem) : String :=
  it.address ++
  (match it.port with | some n => " port " ++ goItoa n | none => "") ++
  (if it.key ≠ "" then " key \"" ++ it.key ++ "\"" else "") ++
  (if it.tls ≠ "" then " tls \"" ++ it.tls ++ "\"" else "")

/-- `parseRemoteServerListBody` (parse_helpers.go). -/
def parseRemoteServerListBody (raw0 : String) : List RemoteServerItem :=
  let raw1 := goTrimSpace raw0
  let raw :=
    if goHasPre raw1 ("\x7b") then
      goTrimSpace (goTrimSuf (goTrimPre raw1 ("\x7b")) ("\x7d"))
    else raw1
  (goSplit raw (";")).filterMap (fun q =>
    let line := goTrimSpace q
    if line = "" then none else some (parseRemoteServerItem line))

/-- `serializeRemoteServerList` (parse_helpers.go). -/
def serializeRemoteServerList (items : List RemoteServerItem) : String :=
  "\x7b " ++ String.intercalate ("; ") (items.map serializeRemoteServerItem) ++ "; \x7d"

/-- Port scanner of `parseControlInet` (parse_helpers.go): the last
successfully parsed `port <n>` pair wins. -/
def ciPortScan : Option Int → List String → Option Int
  | acc, [] => acc
  | acc, w :: rest =>
    if w = "port" then
      match rest with
      | v :: r2 => ciPortScan (match goAtoi? v with | some n => some n | none => acc) r2
      | [] => acc
    else ciPortScan acc rest

/-- `parseControlInet` (parse_helpers.go): marker-substring scanning.  The
`allow` slice extends to the end of the line; `keys`, then `read-only`, are
scanned from what precedes the previously consumed marker. -/
def parseControlInet (raw0 : String) : ControlInet :=
  let rawA := goTrimPre raw0 ("inet ")
  let stA :=
    match goIndexOf rawA (" allow ") with
    | some i => (goTrimSpace (strTake rawA i), parseMatchList (strDrop rawA (i + 7)))
    | none => (rawA, [])
  let rawB := stA.1
  let stB :=
    match goIndexOf rawB (" keys ") with
    | some i => (goTrimSpace (strTake rawB i), parseStringList (strDrop rawB (i + 6)))
    | none => (rawB, [])
  let rawC := stB.1
  let stC :=
    if goContains rawC (" read-only ") then
      let parts := goSplit rawC (" read-only ")
      (goTrimSpace (parts.getD 0 ""), parseBoolPtr (goTrimSpace (parts.getD 1 "")))
    else (rawC, none)
  let fields := goFields stC.1
  { address := fields.headD ""
    port := ciPortScan none (fields.drop 1)
    allow := stA.2
    keys := stB.2
    readOnly := stC.2 }

/-- `serializeControlInet` (parse_helpers.go). -/
def serializeControlInet (ci : ControlInet) : String :=
  "inet " ++ ci.address ++
  (match ci.port with | some n => " port " ++ goItoa n | none => "") ++
  " allow " ++ serializeMatchList ci.allow ++
  (if !ci.keys.isEmpty then
      " keys \x7b " ++ String.intercalate ("; ") (quoteEach ci.keys) ++ "; \x7d"
    else "") ++
  (match ci.readOnly with | some b => " read-only " ++ boolWord b | none => "")

/-- `parseControlUnix` (parse_helpers.go): marker-substring scanning for
`keys` and `read-only`, then a fixed-position field read of
`"path" perm N owner N group N`. -/
def parseControlUnix (raw0 : String) : ControlUnix :=
  let rawA := goTrimPre raw0 ("unix ")
  let stA :=
    match goIndexOf rawA (" keys ") with
    | some i => (goTrimSpace (strTake rawA i), parseStringList (strDrop rawA (i + 6)))
    | none => (rawA, [])
  let rawB := stA.1
  let stB :=
    if goContains rawB (" read-only ") then
      let parts := goSplit rawB (" read-only ")
      (goTrimSpace (parts.getD 0 ""), parseBoolPtr (goTrimSpace (parts.getD 1 "")))
    else (rawB, none)
  let fields := goFields stB.1
  if fields.length ≥ 8 then
    { path := trimQuotes (fields.getD 0 "")
      perm := (goAtoi? (fields.getD 2 "")).getD 0
      owner := (goAtoi? (fields.getD 4 "")).getD 0
      group := (goAtoi? (fields.getD 6 "")).getD 0
      keys := stA.2
      readOnly := stB.2 }
  else
    { keys := stA.2, readOnly := stB.2 }

/-- `serializeControlUnix` (parse_helpers.go). -/
def serializeControlUnix (cu : ControlUnix) : String :=
  "unix \"" ++ cu.path ++ "\" perm " ++ goItoa cu.perm ++
  " owner " ++ goItoa cu.owner ++ " group " ++ goItoa cu.group ++
  (if !cu.keys.isEmpty then
      " keys \x7b " ++ String.intercalate ("; ") (quoteEach cu.keys) ++ "; \x7d"
    else "") ++
  (match cu.readOnly with | some b => " read-only " ++ boolWord b | none => "")

-- ---------------------------------------------------------------------------
-- Projection engine: the per-keyword extraction routines (load.go)
-- ---------------------------------------------------------------------------

/-- The trimmed header line of a body statement: Go
`strings.TrimSpace(strings.TrimSuffix(st.HeadRaw, ";"))`, used by every
extraction routine. -/
def stmtRawLine (hr : String) : String := goTrimSpace (goTrimSuf hr (";"))

/-- `parseACL` (load.go). -/
def parseACL (hr : String) (body : List Node) : ACL :=
  { name := headNameAfter hr, elements := parseMatchListFromBody body }

/-- `parseKey` (load.go). -/
def parseKey (hr : String) (body : List Node) : Key :=
  body.foldl
    (fun k n =>
      match n with
      | .raw _ => k
      | .stmt kw shr _ =>
        let v := trimQuotes (stmtRawLine shr)
        if kw = "algorithm" then { k with algorithm := v }
        else if kw = "secret" then { k with secret := v }
        else k)
    { name := headNameAfter hr }

/-- `parseKeyStore` (load.go). -/
def parseKeyStore (hr : String) (body : List Node) : KeyStore :=
  body.foldl
    (fun ks n =>
      match n with
      | .stmt kw shr _ =>
        if kw = "pkcs11-uri" then { ks with pkcs11URI := trimQuotes (stmtRawLine shr) } else ks
      | .raw _ => ks)
    { name := headNameAfter hr }

/-- `parseRemoteServers` (load.go). -/
def parseRemoteServers (hr : String) (body : List Node) : RemoteServers :=
  { name := headNameAfter hr
    servers := body.filterMap (fun n =>
      match n with
      | .stmt _ shr _ =>
        let raw := stmtRawLine shr
        if raw = "" then none else some (parseRemoteServerItem raw)
      | .raw _ => none) }

/-- `parseTLS` (load.go). -/
def parseTLS (hr : String) (body : List Node) : TLS :=
  body.foldl
    (fun t n =>
      match n with
      | .raw _ => t
      | .stmt kw shr _ =>
        let v := stmtRawLine shr
        let vq := trimQuotes v
        if kw = "ca-file" then { t with caFile := vq }
        else if kw = "cert-file" then { t with certFile := vq }
        else if kw = "key-file" then { t with keyFile := vq }
        else if kw = "cipher-suites" then { t with cipherSuites := vq }
        else if kw = "ciphers" then { t with ciphers := vq }
        else if kw = "dhparam-file" then { t with dhparamFile := vq }
        else if kw = "prefer-server-ciphers" then { t with preferServer := parseBoolPtr v }
        else if kw = "protocols" then { t with protocols := parseStringList v }
        else if kw = "remote-hostname" then { t with remoteHost := vq }
        else if kw = "session-tickets" then { t with sessionTickets := parseBoolPtr v }
        else t)
    { name := headNameAfter hr }

/-- `parseHTTP` (load.go). -/
def parseHTTP (hr : String) (body : List Node) : HTTP :=
  body.foldl
    (fun h n =>
      match n with
      | .raw _ => h
      | .stmt kw shr _ =>
        let v := stmtRawLine shr
        if kw = "endpoints" then { h with endpoints := parseStringList v }
        else if kw = "listener-clients" then { h with listenerClients := parseIntPtr v }
        else if kw = "streams-per-connection" then { h with streamsPerConnection := parseIntPtr v }
        else h)
    { name := headNameAfter hr }

/-- `parseControls` (load.go). -/
def parseControls (body : List Node) : Controls :=
  body.foldl
    (fun c n =>
      match n with
      | .raw _ => c
      | .stmt _ shr _ =>
        let raw := stmtRawLine shr
        if goHasPre raw ("inet ") then { c with inet := c.inet ++ [parseControlInet raw] }
        else if goHasPre raw ("unix ") then { c with unix := c.unix ++ [parseControlUnix raw] }
        else c)
    {}

/-- Argument scanner of the `file` case of `parseLogChannel` (load.go):
`versions`, `size`, `suffix` and `severity` keyword/value pairs. -/
def lfScan : LogFileDest → List String → LogFileDest
  | lf, [] => lf
  | lf, w :: rest =>
    if w = "versions" then
      match rest with
      | v :: r2 =>
        lfScan (match goAtoi? v with | some n => { lf with versions := some n } | none => lf) r2
      | [] => lf
    else if w = "size" then
      match rest with
      | v :: r2 => lfScan { lf with size := v } r2
      | [] => lf
    else if w = "suffix" then
      match rest with
      | v :: r2 => lfScan { lf with suffix := v } r2
      | [] => lf
    else if w = "severity" then
      match rest with
      | v :: r2 => lfScan { lf with severity := v } r2
      | [] => lf
    else lfScan lf rest

/-- `parseLogChannel` (load.go).  In the `file` case the source indexes
`args[0]` unconditionally; the keyword guarantees a first field, modelled
with `headD`. -/
def parseLogChannel (hr : String) (body : List Node) : LogChannel :=
  body.foldl
    (fun lc n =>
      match n with
      | .raw _ => lc
      | .stmt kw shr _ =>
        let raw := stmtRawLine shr
        if kw = "file" then
          let args := goFields raw
          { lc with file := some (lfScan { path := trimQuotes (args.headD "") } (args.drop 1)) }
        else if kw = "syslog" then
          { lc with syslog := some { facility := (goFields raw).headD "" } }
        else if kw = "stderr" then { lc with stderr := true }
        else if kw = "null" then { lc with null := true }
        else if kw = "severity" then { lc with severity := raw }
        else if kw = "print-time" then { lc with printTime := parseBoolPtr raw }
        else if kw = "print-category" then { lc with printCategory := parseBoolPtr raw }
        else if kw = "print-severity" then { lc with printSeverity := parseBoolPtr raw }
        else if kw = "buffered" then { lc with buffered := parseBoolPtr raw }
        else lc)
    { name := headNameAfter hr }

/-- `parseLogCategory` (load.go). -/
def parseLogCategory (hr : String) (body : List Node) : LogCategory :=
  { name := headNameAfter hr
    channels := match body with | .raw t :: _ => parseStringList t | _ => [] }

/-- `parseLogging` (load.go). -/
def parseLogging (body : List Node) : Logging :=
  body.foldl
    (fun lg n =>
      match n with
      | .raw _ => lg
      | .stmt kw shr b =>
        if kw = "channel" then { lg with channels := lg.channels ++ [parseLogChannel shr b] }
        else if kw = "category" then { lg with categories := lg.categories ++ [parseLogCategory shr b] }
        else lg)
    {}

/-- One body statement of `parseOptions` (load.go): dispatch on the fixed
modeled keyword table, everything else appended to the overflow bag. -/
def optionsStep (op : Options) (n : Node) : Options :=
  match n with
  | .raw _ => op
  | .stmt kw hr b =>
    let raw := stmtRawLine hr
    if kw = "directory" then { op with directory := trimQuotes raw }
    else if kw = "recursion" then { op with recursion := parseBoolPtr raw }
    else if kw = "allow-query" then { op with allowQuery := parseMatchList raw }
    else if kw = "allow-transfer" then { op with allowTransfer := parseMatchList raw }
    else if kw = "allow-update" then { op with allowUpdate := parseMatchList raw }
    else if kw = "listen-on" then { op with listenOn := some (parseListen raw) }
    else if kw = "listen-on-v6" then { op with listenOnV6 := some (parseListen raw) }
    else if kw = "forwarders" then { op with forwarders := parseForwarders raw }
    else if kw = "forward" then
      match goFields raw with
      | f0 :: _ => { op with forward := f0 }
      | [] => op
    else if kw = "dnssec-validation" then
      match goFields raw with
      | f0 :: _ => { op with dnssecValidation := f0 }
      | [] => op
    else if kw = "rrset-order" then { op with rrsetOrder := parseRRsetOrder b }
    else { op with other := op.other ++ [{ name := kw, raw := raw }] }

/-- `parseOptions` (load.go). -/
def parseOptions (body : List Node) : Options := body.foldl optionsStep {}

/-- One body statement of `parseTrustAnchors` (load.go): first field is the
quoted name, the remainder is classified by the substrings `ds` / `key`. -/
def taStep (ta : List TrustAnchorItem) (n : Node) : List TrustAnchorItem :=
  match n with
  | .raw _ => ta
  | .stmt _ hr _ =>
    let raw := stmtRawLine hr
    match goFields raw with
    | [] => ta
    | f0 :: _ =>
      let name := trimQuotes f0
      let rest := goTrimSpace (goTrimPre raw (f0 ++ " "))
      if goContains rest ("ds") then ta ++ [{ name := name, ds := rest }]
      else if goContains rest ("key") then ta ++ [{ name := name, dnskey := rest }]
      else ta

/-- `parseTrustAnchors` (load.go). -/
def parseTrustAnchors (body : List Node) : TrustAnchors :=
  { items := body.foldl taStep [] }

/-- `parseZone` (load.go). -/
def parseZone (hr : String) (body : List Node) : Zone :=
  body.foldl
    (fun z n =>
      match n with
      | .raw _ => z
      | .stmt kw shr _ =>
        let raw := stmtRawLine shr
        if kw = "type" then
          match goFields raw with
          | f0 :: _ => { z with ztype := f0 }
          | [] => z
        else if kw = "file" then { z with file := trimQuotes raw }
        else if kw = "primaries" then
          if goHasPre raw ("\x7b") then { z with primaries := parseRemoteServerListBody raw }
          else { z with primariesRef := goTrimSpace raw }
        else if kw = "forwarders" then { z with forwarders := parseForwarders raw }
        else if kw = "forward" then
          match goFields raw with
          | f0 :: _ => { z with forward := f0 }
          | [] => z
        else if kw = "allow-update" then { z with allowUpdate := parseMatchList raw }
        else if kw = "allow-transfer" then { z with allowTransfer := parseMatchList raw }
        else if kw = "also-notify" then { z with alsoNotify := parseRemoteServerListBody raw }
        else if kw = "dnssec-policy" then { z with dnssecPolicy := trimQuotes raw }
        else z)
    { name := headNameAfter hr, klass := headClassAfter hr }

/-- `parseView` (load.go). -/
def parseView (hr : String) (body : List Node) : View :=
  body.foldl
    (fun v n =>
      match n with
      | .raw _ => v
      | .stmt kw shr b =>
        let raw := stmtRawLine shr
        if kw = "match-clients" then { v with matchClients := parseMatchList raw }
        else if kw = "match-destinations" then { v with matchDestinations := parseMatchList raw }
        else if kw = "recursion" then { v with recursion := parseBoolPtr raw }
        else if kw = "trust-anchors" then { v with trustAnchors := some (parseTrustAnchors b) }
        else if kw = "zone" then { v with zones := v.zones ++ [parseZone shr b] }
        else if kw = "include" then { v with includes := v.includes ++ [{ path := trimQuotes raw }] }
        else v)
    { name := headNameAfter hr, klass := headClassAfter hr }

/-- One top-level node of `FromFile` (load.go): dispatch by keyword; unknown
keywords stay only in the CST. -/
def fromFileStep (cfg : Config) (n : Node) : Config :=
  match n with
  | .raw _ => cfg
  | .stmt kw hr body =>
    if kw = "include" then
      { cfg with includes := cfg.includes ++ [{ path := trimQuotes (goTrimSpace (goTrimSuf hr (";"))) }] }
    else if kw = "acl" then { cfg with acls := cfg.acls ++ [parseACL hr body] }
    else if kw = "key" then { cfg with keys := cfg.keys ++ [parseKey hr body] }
    else if kw = "key-store" then { cfg with keyStores := cfg.keyStores ++ [parseKeyStore hr body] }
    else if kw = "remote-servers" then
      { cfg with remoteServers := cfg.remoteServers ++ [parseRemoteServers hr body] }
    else if kw = "tls" then { cfg with tls := cfg.tls ++ [parseTLS hr body] }
    else if kw = "http" then { cfg with http := cfg.http ++ [parseHTTP hr body] }
    else if kw = "controls" then { cfg with controls := some (parseControls body) }
    else if kw = "logging" then { cfg with logging := some (parseLogging body) }
    else if kw = "options" then { cfg with options := some (parseOptions body) }
    else if kw = "trust-anchors" then
      { cfg with trustAnchors := cfg.trustAnchors ++ [parseTrustAnchors body] }
    else if kw = "view" then { cfg with views := cfg.views ++ [parseView hr body] }
    else if kw = "zone" then { cfg with zones := cfg.zones ++ [parseZone hr body] }
    else cfg

/-- `FromFile` (load.go), the always-successful configuration part: one pass
over the node list, starting from a root that back-references the file. -/
def fromFile (f : File) : Config := f.nodes.foldl fromFileStep { ast := some f }

/-- `FromFile` (load.go) with its Go signature `(*Config, error)`: the
source's only return statement is `return cfg, nil`. -/
def fromFileE (f : File) : Except String Config := .ok (fromFile f)

-- ---------------------------------------------------------------------------
-- Synchronization engine: builders and sync (load.go)
-- ---------------------------------------------------------------------------

/-- The node-keeping predicate shared by `syncBlocks`, `syncSingleton` and
`syncIncludes` (load.go): drop statements of the given keyword, keep
everything else (raw fragments included). -/
def keepNotKw (kw : String) (n : Node) : Bool :=
  match n with
  | .stmt k _ _ => !(k == kw)
  | .raw _ => true

/-- The common core of `syncBlocks`, `syncSingleton` and `syncIncludes`
(load.go): remove every statement of the keyword, then append the freshly
built nodes at the end. -/
def syncB (kw : String) (newNodes : List Node) (ns : List Node) : List Node :=
  ns.filter (keepNotKw kw) ++ newNodes

/-- `*T`-to-collection coercion used by `syncSingleton` (load.go): a nil
pointer contributes no element, a non-nil pointer exactly one. -/
def optList : Option α → List α
  | none => []
  | some x => [x]

/-- Include node built by `syncIncludes` (load.go). -/
def buildIncludeStmt (i : Include) : Node :=
  mkSimpleStmt ("include \"" ++ i.path ++ "\"")

/-- `buildACL` (load.go). -/
def buildACL (a : ACL) : Node :=
  mkBlockStmt ("acl \"" ++ a.name ++ "\"") [.raw (serializeMatchList a.elements)]

/-- `buildKey` (load.go). -/
def buildKey (k : Key) : Node :=
  mkBlockStmt ("key \"" ++ k.name ++ "\"")
    [mkSimpleStmt ("algorithm \"" ++ k.algorithm ++ "\""),
     mkSimpleStmt ("secret \"" ++ k.secret ++ "\"")]

/-- `buildKeyStore` (load.go). -/
def buildKeyStore (ks : KeyStore) : Node :=
  mkBlockStmt ("key-store \"" ++ ks.name ++ "\"")
    (if ks.pkcs11URI ≠ "" then [mkSimpleStmt ("pkcs11-uri \"" ++ ks.pkcs11URI ++ "\"")] else [])

/-- `buildRemoteServers` (load.go). -/
def buildRemoteServers (rs : RemoteServers) : Node :=
  mkBlockStmt ("remote-servers \"" ++ rs.name ++ "\"")
    (rs.servers.map (fun it => mkSimpleStmt (serializeRemoteServerItem it)))

/-- `buildTLS` (load.go). -/
def buildTLS (t : TLS) : Node :=
  mkBlockStmt ("tls \"" ++ t.name ++ "\"")
    ((if t.caFile ≠ "" then [mkSimpleStmt ("ca-file \"" ++ t.caFile ++ "\"")] else []) ++
     (if t.certFile ≠ "" then [mkSimpleStmt ("cert-file \"" ++ t.certFile ++ "\"")] else []) ++
     (if t.keyFile ≠ "" then [mkSimpleStmt ("key-file \"" ++ t.keyFile ++ "\"")] else []) ++
     (if t.cipherSuites ≠ "" then
        [mkSimpleStmt ("cipher-suites \"" ++ t.cipherSuites ++ "\"")] else []) ++
     (if t.ciphers ≠ "" then [mkSimpleStmt ("ciphers \"" ++ t.ciphers ++ "\"")] else []) ++
     (if t.dhparamFile ≠ "" then [mkSimpleStmt ("dhparam-file \"" ++ t.dhparamFile ++ "\"")] else []) ++
     (match t.preferServer with
      | some b => [mkSimpleStmt ("prefer-server-ciphers " ++ boolWord b)]
      | none => []) ++
     (if !t.protocols.isEmpty then
        [mkSimpleStmt ("protocols \x7b " ++ String.intercalate ("; ") (quoteEach t.protocols) ++ "; \x7d")]
      else []) ++
     (if t.remoteHost ≠ "" then [mkSimpleStmt ("remote-hostname \"" ++ t.remoteHost ++ "\"")] else []) ++
     (match t.sessionTickets with
      | some b => [mkSimpleStmt ("session-tickets " ++ boolWord b)]
      | none => []))

/-- `buildHTTP` (load.go). -/
def buildHTTP (h : HTTP) : Node :=
  mkBlockStmt ("http \"" ++ h.name ++ "\"")
    ((if !h.endpoints.isEmpty then
        [mkSimpleStmt ("endpoints \x7b " ++ String.intercalate ("; ") (quoteEach h.endpoints) ++ "; \x7d")]
      else []) ++
     (match h.listenerClients with
      | some n => [mkSimpleStmt ("listener-clients " ++ goItoa n)]
      | none => []) ++
     (match h.streamsPerConnection with
      | some n => [mkSimpleStmt ("streams-per-connection " ++ goItoa n)]
      | none => []))

/-- `buildControls` (load.go). -/
def buildControls (c : Controls) : Node :=
  mkBlockStmt ("controls")
    (c.inet.map (fun i => mkSimpleStmt (serializeControlInet i)) ++
     c.unix.map (fun u => mkSimpleStmt (serializeControlUnix u)))

/-- `buildLogChannel` (load.go). -/
def buildLogChannel (ch : LogChannel) : Node :=
  mkBlockStmt ("channel \"" ++ ch.name ++ "\"")
    ((match ch.file with
      | some lf =>
        [mkSimpleStmt ("file " ++
          String.intercalate (" ")
            (["\"" ++ lf.path ++ "\""] ++
             (match lf.versions with | some n => ["versions " ++ goItoa n] | none => []) ++
             (if lf.size ≠ "" then ["size " ++ lf.size] else []) ++
             (if lf.suffix ≠ "" then ["suffix " ++ lf.suffix] else []) ++
             (if lf.severity ≠ "" then ["severity " ++ lf.severity] else [])))]
      | none => []) ++
     (match ch.syslog with
      | some sf =>
        if sf.facility ≠ "" then [mkSimpleStmt ("syslog " ++ sf.facility)]
        else [mkSimpleStmt ("syslog")]
      | none => []) ++
     (if ch.stderr then [mkSimpleStmt ("stderr")] else []) ++
     (if ch.null then [mkSimpleStmt ("null")] else []) ++
     (if ch.severity ≠ "" then [mkSimpleStmt ("severity " ++ ch.severity)] else []) ++
     (match ch.printTime with
      | some b => [mkSimpleStmt ("print-time " ++ boolWord b)] | none => []) ++
     (match ch.printCategory with
      | some b => [mkSimpleStmt ("print-category " ++ boolWord b)] | none => []) ++
     (match ch.printSeverity with
      | some b => [mkSimpleStmt ("print-severity " ++ boolWord b)] | none => []) ++
     (match ch.buffered with
      | some b => [mkSimpleStmt ("buffered " ++ boolWord b)] | none => []))

/-- `buildLogCategory` (load.go). -/
def buildLogCategory (cat : LogCategory) : Node :=
  mkSimpleStmt ("category \"" ++ cat.name ++ "\" \x7b " ++
    String.intercalate ("; ") (quoteEach cat.channels) ++ "; \x7d")

/-- `buildLogging` (load.go). -/
def buildLogging (l : Logging) : Node :=
  mkBlockStmt ("logging")
    (l.channels.map buildLogChannel ++ l.categories.map buildLogCategory)

/-- Body of `buildOptions` (load.go), in the source's emission order; the
overflow bag is re-emitted last, one statement per entry. -/
def buildOptionsBody (o : Options) : List Node :=
  (if o.directory ≠ "" then [mkSimpleStmt ("directory \"" ++ o.directory ++ "\"")] else []) ++
  (match o.recursion with
   | some b => [mkSimpleStmt ("recursion " ++ boolWord b)] | none => []) ++
  (if !o.allowQuery.isEmpty then
     [mkSimpleStmt ("allow-query " ++ serializeMatchList o.allowQuery)] else []) ++
  (if !o.allowTransfer.isEmpty then
     [mkSimpleStmt ("allow-transfer " ++ serializeMatchList o.allowTransfer)] else []) ++
  (if !o.allowUpdate.isEmpty then
     [mkSimpleStmt ("allow-update " ++ serializeMatchList o.allowUpdate)] else []) ++
  (match o.listenOn with
   | some l => [mkSimpleStmt ("listen-on " ++ serializeListen l)] | none => []) ++
  (match o.listenOnV6 with
   | some l => [mkSimpleStmt ("listen-on-v6 " ++ serializeListen l)] | none => []) ++
  (if !o.forwarders.isEmpty then
     [mkSimpleStmt ("forwarders " ++ serializeForwarders o.forwarders)] else []) ++
  (if o.forward ≠ "" then [mkSimpleStmt ("forward " ++ o.forward)] else []) ++
  (if o.dnssecValidation ≠ "" then
     [mkSimpleStmt ("dnssec-validation " ++ o.dnssecValidation)] else []) ++
  (if !o.rrsetOrder.isEmpty then
     [mkSimpleStmt ("rrset-order \x7b " ++ serializeRRsetOrder o.rrsetOrder ++ " \x7d")] else []) ++
  o.other.map (fun kv => mkSimpleStmt (kv.name ++ " " ++ kv.raw))

/-- `buildOptions` (load.go). -/
def buildOptions (o : Options) : Node := mkBlockStmt ("options") (buildOptionsBody o)

/-- `buildTrustAnchors` (load.go). -/
def buildTrustAnchors (t : TrustAnchors) : Node :=
  mkBlockStmt ("trust-anchors")
    (t.items.filterMap (fun it =>
      if it.ds ≠ "" then some (mkSimpleStmt ("\"" ++ it.name ++ "\" " ++ it.ds))
      else if it.dnskey ≠ "" then some (mkSimpleStmt ("\"" ++ it.name ++ "\" " ++ it.dnskey))
      else none))

/-- `buildZone` (load.go). -/
def buildZone (z : Zone) : Node :=
  mkBlockStmt
    ("zone \"" ++ z.name ++ "\"" ++ (if z.klass ≠ "" then " " ++ z.klass else ""))
    ((if z.ztype ≠ "" then [mkSimpleStmt ("type " ++ z.ztype)] else []) ++
     (if z.file ≠ "" then [mkSimpleStmt ("file \"" ++ z.file ++ "\"")] else []) ++
     (if z.primariesRef ≠ "" then [mkSimpleStmt ("primaries " ++ z.primariesRef)] else []) ++
     (if !z.primaries.isEmpty then
        [mkSimpleStmt ("primaries " ++ serializeRemoteServerList z.primaries)] else []) ++
     (if !z.forwarders.isEmpty then
        [mkSimpleStmt ("forwarders " ++ serializeForwarders z.forwarders)] else []) ++
     (if z.forward ≠ "" then [mkSimpleStmt ("forward " ++ z.forward)] else []) ++
     (if !z.allowUpdate.isEmpty then
        [mkSimpleStmt ("allow-update " ++ serializeMatchList z.allowUpdate)] else []) ++
     (if !z.allowTransfer.isEmpty then
        [mkSimpleStmt ("allow-transfer " ++ serializeMatchList z.allowTransfer)] else []) ++
     (if !z.alsoNotify.isEmpty then
        [mkSimpleStmt ("also-notify " ++ serializeRemoteServerList z.alsoNotify)] else []) ++
     (if z.dnssecPolicy ≠ "" then
        [mkSimpleStmt ("dnssec-policy \"" ++ z.dnssecPolicy ++ "\"")] else []))

/-- `buildView` (load.go). -/
def buildView (v : View) : Node :=
  mkBlockStmt
    ("view \"" ++ v.name ++ "\"" ++ (if v.klass ≠ "" then " " ++ v.klass else ""))
    ((if !v.matchClients.isEmpty then
        [mkSimpleStmt ("match-clients " ++ serializeMatchList v.matchClients)] else []) ++
     (if !v.matchDestinations.isEmpty then
        [mkSimpleStmt ("match-destinations " ++ serializeMatchList v.matchDestinations)] else []) ++
     (match v.recursion with
      | some b => [mkSimpleStmt ("recursion " ++ boolWord b)] | none => []) ++
     (match v.trustAnchors with
      | some ta => [buildTrustAnchors ta] | none => []) ++
     v.zones.map buildZone ++
     v.includes.map (fun inc => mkSimpleStmt ("include \"" ++ inc.path ++ "\"")))

/-- The node-list transformation of `Apply` (load.go): `syncIncludes`, then
`syncBlocks`/`syncSingleton` for every modeled keyword, in the source's
order. -/
def applyNodes (c : Config) (ns : List Node) : List Node :=
  let ns := syncB ("include") (c.includes.map buildIncludeStmt) ns
  let ns := syncB ("acl") (c.acls.map buildACL) ns
  let ns := syncB ("key") (c.keys.map buildKey) ns
  let ns := syncB ("key-store") (c.keyStores.map buildKeyStore) ns
  let ns := syncB ("remote-servers") (c.remoteServers.map buildRemoteServers) ns
  let ns := syncB ("tls") (c.tls.map buildTLS) ns
  let ns := syncB ("http") (c.http.map buildHTTP) ns
  let ns := syncB ("controls") ((optList c.controls).map buildControls) ns
  let ns := syncB ("logging") ((optList c.logging).map buildLogging) ns
  let ns := syncB ("options") ((optList c.options).map buildOptions) ns
  let ns := syncB ("trust-anchors") (c.trustAnchors.map buildTrustAnchors) ns
  let ns := syncB ("view") (c.views.map buildView) ns
  let ns := syncB ("zone") (c.zones.map buildZone) ns
  ns

/-- `Apply` (load.go): a nil argument falls back to the backing AST; a nil
effective file is the engine's explicit failure; otherwise the node list is
resynchronized and the back-reference updated. -/
def Config.applyE (c : Config) (farg : Option File) : Except String (Config × File) :=
  match (match farg with | some f => some f | none => c.ast) with
  | none => .error ("Apply: nil file")
  | some f =>
    let f' : File := ⟨applyNodes c f.nodes⟩
    .ok ({ c with ast := some f' }, f')

/-- Outcome of `Save` (api.go): either the explicit error, or the file that
was encoded and handed to the external writer, plus the updated config. -/
inductive SaveOutcome where
  | err (msg : String)
  | ok (written : File) (updated : Config)
deriving DecidableEq

/-- `Save` (api.go): missing backing AST is reported before any encode or
write; otherwise `Apply` runs on the backing AST and the result is persisted.
The external `File.Save` is modelled from the spec (`persist node list to
storage`) as an unconditional success, file-system behavior being out of
scope. -/
def Config.save (c : Config) (_path : String) : SaveOutcome :=
  match c.ast with
  | none => .err ("namedzone: no underlying AST; call FromFile first")
  | some f =>
    match c.applyE (some f) with
    | .error e => .err e
    | .ok (c', f') => .ok f' c'

-- ---------------------------------------------------------------------------
-- Derived notions used by the statements about the synchronization engine
-- ---------------------------------------------------------------------------

/-- The modeled top-level keywords, in the order `Apply` (load.go)
synchronizes them. -/
def modeledKeywords : List String :=
  ["include", "acl", "key", "key-store", "remote-servers", "tls", "http",
   "controls", "logging", "options", "trust-anchors", "view", "zone"]

/-- Whether a node is a statement of the given keyword. -/
def hasKw (kw : String) (n : Node) : Bool := nodeKw n == some kw

/-- Whether a node is a statement of a modeled keyword. -/
def isModeledNode (n : Node) : Bool := modeledKeywords.any (fun kw => hasKw kw n)

/-- The nodes `Apply` (load.go) freshly builds for one modeled keyword: one
node per entity of that keyword's collection, in the model's present order
(singletons contribute at most one node). -/
def builtFor (c : Config) (kw : String) : List Node :=
  if kw = "include" then c.includes.map buildIncludeStmt
  else if kw = "acl" then c.acls.map buildACL
  else if kw = "key" then c.keys.map buildKey
  else if kw = "key-store" then c.keyStores.map buildKeyStore
  else if kw = "remote-servers" then c.remoteServers.map buildRemoteServers
  else if kw = "tls" then c.tls.map buildTLS
  else if kw = "http" then c.http.map buildHTTP
  else if kw = "controls" then (optList c.controls).map buildControls
  else if kw = "logging" then (optList c.logging).map buildLogging
  else if kw = "options" then (optList c.options).map buildOptions
  else if kw = "trust-anchors" then c.trustAnchors.map buildTrustAnchors
  else if kw = "view" then c.views.map buildView
  else if kw = "zone" then c.zones.map buildZone
  else []

/-- All nodes `Apply` freshly builds, grouped by keyword in the sync order. -/
def builtAll (c : Config) : List Node :=
  (modeledKeywords.map (builtFor c)).flatten

/-- A sequence of `syncB` passes, one per keyword/replacement-list pair. -/
def syncSeq : List (String × List Node) → List Node → List Node
  | [], ns => ns
  | (kw, new) :: rest, ns => syncSeq rest (syncB kw new ns)

-- ---------------------------------------------------------------------------
-- Specification-side definitions and concrete sample values used by the
-- statements below
-- ---------------------------------------------------------------------------

def c1SampleConfig : Config :=
  { acls := [{ name := "trusted", elements := [MatchTerm.mk false "" "" "any" []] }] }

def c1SampleNodes : List Node :=
  [Node.raw ("; untouched comment"),
   Node.stmt ("acl") ("acl \"old\"") [],
   Node.stmt ("server") ("server x") []]

def idempotenceFailModel : Config :=
  { acls := [{ name := "a", elements := [MatchTerm.mk false "" "" "" [MatchTerm.mk false "10.0.0.0/8" "" "" []]] }] }

def saveSampleFile : File := ⟨[Node.raw ("x")]⟩

def saveSampleConfig : Config := { ast := some saveSampleFile }

def segmentsOf (raw0 : String) : List String :=
  let raw1 := goTrimSpace raw0
  let raw :=
    if goHasPre raw1 ("\x7b") then
      goTrimSpace (goTrimSuf (goTrimPre raw1 ("\x7b")) ("\x7d"))
    else raw1
  ((goSplit raw (";")).map goTrimSpace).filter (fun p => p ≠ "")

def markNot : MatchTerm → MatchTerm
  | .mk _ a k r s => .mk true a k r s

mutual

def decodeMLSpec : Nat → String → List MatchTerm
  | 0, _ => []
  | fuel + 1, raw => (segmentsOf raw).map (classifySegment fuel)
termination_by fuel _ => (fuel, 0)

def classifySegment (fuel : Nat) (seg : String) : MatchTerm :=
  if goHasPre seg ("!") then
    markNot (classifyCore fuel (goTrimSpace (goTrimPre seg ("!"))))
  else classifyCore fuel seg
termination_by (fuel, 2)

def classifyCore (fuel : Nat) (p : String) : MatchTerm :=
  if goHasPre p ("key ") then MatchTerm.mk false "" (trimQuotes (goTrimPre p ("key "))) "" []
  else if goHasPre p ("\x7b") then MatchTerm.mk false "" "" "" (decodeMLSpec fuel p)
  else if goContains p ("/") || goCountChar p ':' > 1 || goCountChar p '.' = 3 then
    MatchTerm.mk false p "" "" []
  else MatchTerm.mk false "" "" (trimQuotes p) []
termination_by (fuel, 1)

end

def decodeMLSpecTop (raw : String) : List MatchTerm := decodeMLSpec (raw.data.length + 1) raw

def optionsKeywordTable : List String :=
  ["directory", "recursion", "allow-query", "allow-transfer", "allow-update",
   "listen-on", "listen-on-v6", "forwarders", "forward", "dnssec-validation", "rrset-order"]

def optionsOverflowEntry (n : Node) : Option RawKV :=
  match n with
  | .raw _ => none
  | .stmt kw hr _ =>
    if kw ∈ optionsKeywordTable then none
    else some { name := kw, raw := stmtRawLine hr }

def trustAnchorEntry (n : Node) : Option TrustAnchorItem :=
  match n with
  | .raw _ => none
  | .stmt _ hr _ =>
    let raw := stmtRawLine hr
    match goFields raw with
    | [] => none
    | f0 :: _ =>
      let rest := goTrimSpace (goTrimPre raw (f0 ++ " "))
      if goContains rest ("ds") then some { name := trimQuotes f0, ds := rest }
      else if goContains rest ("key") then some { name := trimQuotes f0, dnskey := rest }
      else none

-- ---------------------------------------------------------------------------
-- Theorems
-- ---------------------------------------------------------------------------

theorem keepNotKw_eq (kw : String) (n : Node) : keepNotKw kw n = !hasKw kw n := by
  cases n <;> simp [keepNotKw, hasKw, nodeKw]

theorem takeWhile_append_of_all {p : Char → Bool} (w : List Char) (x : Char) (rest : List Char)
    (hw : ∀ c ∈ w, p c = true) (hx : p x = false) :
    (w ++ x :: rest).takeWhile p = w := by
  induction w with
  | nil => simp [List.takeWhile_cons, hx]
  | cons c w ih =>
    have hc : p c = true := hw c (List.mem_cons_self c w)
    simp [List.takeWhile_cons, hc]
    exact ih (fun d hd => hw d (List.mem_cons_of_mem c hd))

theorem headKeyword_data_eq (s : String) (w rest : List Char)
    (hdata : s.data = w ++ ' ' :: rest) (hne : w ≠ [])
    (hw : ∀ c ∈ w, isWS c = false) :
    headKeyword s = String.mk w := by
  unfold headKeyword
  rw [hdata]
  obtain ⟨c, w', rfl⟩ : ∃ c w', w = c :: w' := by
    cases w with
    | nil => exact absurd rfl hne
    | cons c w' => exact ⟨c, w', rfl⟩
  have hc : isWS c = false := hw c (List.mem_cons_self c w')
  rw [List.cons_append, List.dropWhile_cons]
  simp only [hc]
  simp only [Bool.false_eq_true, if_false]
  rw [← List.cons_append]
  rw [takeWhile_append_of_all (c :: w') ' ' rest
        (by intro d hd; simp [hw d hd]) (by simp [isWS])]

theorem headKeyword_of_pre (pre : String) (w rest0 : List Char) (tail : String)
    (hpre : pre.data = w ++ ' ' :: rest0) (hne : w ≠ [])
    (hw : ∀ c ∈ w, isWS c = false) :
    headKeyword (pre ++ tail) = String.mk w := by
  apply headKeyword_data_eq _ w (rest0 ++ tail.data)
  · rw [String.data_append, hpre]; simp
  · exact hne
  · exact hw

theorem kw_buildIncludeStmt (i : Include) : nodeKw (buildIncludeStmt i) = some "include" := by
  show some (headKeyword (("include \"" ++ i.path) ++ "\"")) = some "include"
  rw [String.append_assoc]
  rw [headKeyword_of_pre ("include \"") ['i','n','c','l','u','d','e'] ['"'] _ rfl
        (by decide) (by decide)]

theorem kw_buildACL (a : ACL) : nodeKw (buildACL a) = some "acl" := by
  show some (headKeyword (("acl \"" ++ a.name) ++ "\"")) = some "acl"
  rw [String.append_assoc]
  rw [headKeyword_of_pre ("acl \"") ['a','c','l'] ['"'] _ rfl (by decide) (by decide)]

theorem kw_buildKey (k : Key) : nodeKw (buildKey k) = some "key" := by
  show some (headKeyword (("key \"" ++ k.name) ++ "\"")) = some "key"
  rw [String.append_assoc]
  rw [headKeyword_of_pre ("key \"") ['k','e','y'] ['"'] _ rfl (by decide) (by decide)]

theorem kw_buildKeyStore (ks : KeyStore) : nodeKw (buildKeyStore ks) = some "key-store" := by
  show some (headKeyword (("key-store \"" ++ ks.name) ++ "\"")) = some "key-store"
  rw [String.append_assoc]
  rw [headKeyword_of_pre ("key-store \"") ['k','e','y','-','s','t','o','r','e'] ['"'] _ rfl
        (by decide) (by decide)]

theorem kw_buildRemoteServers (rs : RemoteServers) :
    nodeKw (buildRemoteServers rs) = some "remote-servers" := by
  show some (headKeyword (("remote-servers \"" ++ rs.name) ++ "\"")) = some "remote-servers"
  rw [String.append_assoc]
  rw [headKeyword_of_pre ("remote-servers \"")
        ['r','e','m','o','t','e','-','s','e','r','v','e','r','s'] ['"'] _ rfl
        (by decide) (by decide)]

theorem kw_buildTLS (t : TLS) : nodeKw (buildTLS t) = some "tls" := by
  show some (headKeyword (("tls \"" ++ t.name) ++ "\"")) = some "tls"
  rw [String.append_assoc]
  rw [headKeyword_of_pre ("tls \"") ['t','l','s'] ['"'] _ rfl (by decide) (by decide)]

theorem kw_buildHTTP (h : HTTP) : nodeKw (buildHTTP h) = some "http" := by
  show some (headKeyword (("http \"" ++ h.name) ++ "\"")) = some "http"
  rw [String.append_assoc]
  rw [headKeyword_of_pre ("http \"") ['h','t','t','p'] ['"'] _ rfl (by decide) (by decide)]

theorem kw_buildControls (c : Controls) : nodeKw (buildControls c) = some "controls" := by
  show some (headKeyword ("controls")) = some "controls"
  decide

theorem kw_buildLogging (l : Logging) : nodeKw (buildLogging l) = some "logging" := by
  show some (headKeyword ("logging")) = some "logging"
  decide

theorem kw_buildOptions (o : Options) : nodeKw (buildOptions o) = some "options" := by
  show some (headKeyword ("options")) = some "options"
  decide

theorem kw_buildTrustAnchors (t : TrustAnchors) :
    nodeKw (buildTrustAnchors t) = some "trust-anchors" := by
  show some (headKeyword ("trust-anchors")) = some "trust-anchors"
  decide

theorem kw_buildView (v : View) : nodeKw (buildView v) = some "view" := by
  show some (headKeyword ((("view \"" ++ v.name) ++ "\"") ++
      (if v.klass ≠ "" then " " ++ v.klass else ""))) = some "view"
  rw [String.append_assoc, String.append_assoc]
  rw [headKeyword_of_pre ("view \"") ['v','i','e','w'] ['"'] _ rfl (by decide) (by decide)]

theorem kw_buildZone (z : Zone) : nodeKw (buildZone z) = some "zone" := by
  show some (headKeyword ((("zone \"" ++ z.name) ++ "\"") ++
      (if z.klass ≠ "" then " " ++ z.klass else ""))) = some "zone"
  rw [String.append_assoc, String.append_assoc]
  rw [headKeyword_of_pre ("zone \"") ['z','o','n','e'] ['"'] _ rfl (by decide) (by decide)]

theorem builtFor_kw (c : Config) :
    ∀ kw ∈ modeledKeywords, ∀ n ∈ builtFor c kw, nodeKw n = some kw := by
  intro kw hkw
  simp only [modeledKeywords, List.mem_cons, List.not_mem_nil, or_false] at hkw
  rcases hkw with rfl | rfl | rfl | rfl | rfl | rfl | rfl | rfl | rfl | rfl | rfl | rfl | rfl
  · intro n hn
    rw [show builtFor c "include" = c.includes.map buildIncludeStmt from rfl] at hn
    obtain ⟨x, _, rfl⟩ := List.mem_map.1 hn; exact kw_buildIncludeStmt x
  · intro n hn
    rw [show builtFor c "acl" = c.acls.map buildACL from rfl] at hn
    obtain ⟨x, _, rfl⟩ := List.mem_map.1 hn; exact kw_buildACL x
  · intro n hn
    rw [show builtFor c "key" = c.keys.map buildKey from rfl] at hn
    obtain ⟨x, _, rfl⟩ := List.mem_map.1 hn; exact kw_buildKey x
  · intro n hn
    rw [show builtFor c "key-store" = c.keyStores.map buildKeyStore from rfl] at hn
    obtain ⟨x, _, rfl⟩ := List.mem_map.1 hn; exact kw_buildKeyStore x
  · intro n hn
    rw [show builtFor c "remote-servers" = c.remoteServers.map buildRemoteServers from rfl] at hn
    obtain ⟨x, _, rfl⟩ := List.mem_map.1 hn; exact kw_buildRemoteServers x
  · intro n hn
    rw [show builtFor c "tls" = c.tls.map buildTLS from rfl] at hn
    obtain ⟨x, _, rfl⟩ := List.mem_map.1 hn; exact kw_buildTLS x
  · intro n hn
    rw [show builtFor c "http" = c.http.map buildHTTP from rfl] at hn
    obtain ⟨x, _, rfl⟩ := List.mem_map.1 hn; exact kw_buildHTTP x
  · intro n hn
    rw [show builtFor c "controls" = (optList c.controls).map buildControls from rfl] at hn
    obtain ⟨x, _, rfl⟩ := List.mem_map.1 hn; exact kw_buildControls x
  · intro n hn
    rw [show builtFor c "logging" = (optList c.logging).map buildLogging from rfl] at hn
    obtain ⟨x, _, rfl⟩ := List.mem_map.1 hn; exact kw_buildLogging x
  · intro n hn
    rw [show builtFor c "options" = (optList c.options).map buildOptions from rfl] at hn
    obtain ⟨x, _, rfl⟩ := List.mem_map.1 hn; exact kw_buildOptions x
  · intro n hn
    rw [show builtFor c "trust-anchors" = c.trustAnchors.map buildTrustAnchors from rfl] at hn
    obtain ⟨x, _, rfl⟩ := List.mem_map.1 hn; exact kw_buildTrustAnchors x
  · intro n hn
    rw [show builtFor c "view" = c.views.map buildView from rfl] at hn
    obtain ⟨x, _, rfl⟩ := List.mem_map.1 hn; exact kw_buildView x
  · intro n hn
    rw [show builtFor c "zone" = c.zones.map buildZone from rfl] at hn
    obtain ⟨x, _, rfl⟩ := List.mem_map.1 hn; exact kw_buildZone x

theorem syncSeq_eq (ps : List (String × List Node)) (ns : List Node)
    (hkw : ∀ p ∈ ps, ∀ n ∈ p.2, nodeKw n = some p.1)
    (hnd : (ps.map Prod.fst).Nodup) :
    syncSeq ps ns
      = ns.filter (fun n => !(ps.any (fun q => hasKw q.1 n))) ++ (ps.map Prod.snd).flatten := by
  induction ps generalizing ns with
  | nil => simp [syncSeq]
  | cons p rest ih =>
    obtain ⟨kw, new⟩ := p
    simp only [List.map_cons, List.nodup_cons] at hnd
    have hkwHead : ∀ n ∈ new, nodeKw n = some kw := hkw (kw, new) (List.mem_cons_self _ _)
    have hkwRest : ∀ q ∈ rest, ∀ n ∈ q.2, nodeKw n = some q.1 :=
      fun q hq => hkw q (List.mem_cons_of_mem _ hq)
    show syncSeq rest (syncB kw new ns) = _
    rw [ih (syncB kw new ns) hkwRest hnd.2]
    unfold syncB
    rw [List.filter_append]
    have hnew : List.filter (fun n => !(rest.any fun q => hasKw q.1 n)) new = new := by
      rw [List.filter_eq_self]
      intro n hnmem
      have h1 := hkwHead n hnmem
      simp only [Bool.not_eq_true']
      rw [List.any_eq_false]
      intro q hq
      simp only [hasKw, h1, Option.some.injEq, beq_iff_eq]
      intro he
      exact hnd.1 (he ▸ List.mem_map_of_mem Prod.fst hq)
    rw [hnew, List.filter_filter]
    have hpred : ∀ n ∈ ns,
        ((!(rest.any fun q => hasKw q.1 n)) && keepNotKw kw n)
          = !(((kw, new) :: rest).any fun q => hasKw q.1 n) := by
      intro n _
      rw [List.any_cons, Bool.not_or, keepNotKw_eq, Bool.and_comm]
    rw [List.filter_congr hpred]
    simp [List.append_assoc]

theorem applyNodes_eq_syncSeq (c : Config) (ns : List Node) :
    applyNodes c ns = syncSeq (modeledKeywords.map (fun kw => (kw, builtFor c kw))) ns := rfl

theorem applyNodes_decomp (c : Config) (ns : List Node) :
    applyNodes c ns = ns.filter (fun n => !isModeledNode n) ++ builtAll c := by
  have hkw : ∀ p ∈ modeledKeywords.map (fun kw => (kw, builtFor c kw)),
      ∀ n ∈ p.2, nodeKw n = some p.1 := by
    intro p hp
    obtain ⟨kw, hkwmem, rfl⟩ := List.mem_map.1 hp
    exact builtFor_kw c kw hkwmem
  have hnd : ((modeledKeywords.map (fun kw => (kw, builtFor c kw))).map Prod.fst).Nodup := by
    rw [List.map_map]
    rw [show (Prod.fst ∘ fun kw => (kw, builtFor c kw)) = fun kw : String => kw from rfl]
    rw [show List.map (fun kw : String => kw) modeledKeywords = modeledKeywords from
          List.map_id' modeledKeywords]
    decide
  rw [applyNodes_eq_syncSeq, syncSeq_eq _ _ hkw hnd]
  have h1 : (fun n => !(List.map (fun kw => (kw, builtFor c kw)) modeledKeywords).any
        fun q => hasKw q.1 n) = (fun n => !isModeledNode n) := by
    funext n
    rfl
  have h2 : (List.map Prod.snd (List.map (fun kw => (kw, builtFor c kw)) modeledKeywords)).flatten
      = builtAll c := by
    rw [List.map_map]
    rfl
  rw [h1, h2]

theorem builtAll_modeled (c : Config) : ∀ n ∈ builtAll c, isModeledNode n = true := by
  intro n hn
  obtain ⟨l, hl, hnl⟩ := List.mem_flatten.1 hn
  obtain ⟨kw, hkwmem, rfl⟩ := List.mem_map.1 hl
  have hkwn := builtFor_kw c kw hkwmem n hnl
  simp only [isModeledNode, List.any_eq_true]
  exact ⟨kw, hkwmem, by simp [hasKw, hkwn]⟩

theorem filter_hasKw_builtFor_self (c : Config) (kw : String) (h : kw ∈ modeledKeywords) :
    (builtFor c kw).filter (hasKw kw) = builtFor c kw := by
  rw [List.filter_eq_self]
  intro n hn
  simp [hasKw, builtFor_kw c kw h n hn]

theorem filter_hasKw_builtFor_ne (c : Config) (kw kw' : String)
    (h' : kw' ∈ modeledKeywords) (hne : kw' ≠ kw) :
    (builtFor c kw').filter (hasKw kw) = [] := by
  rw [List.filter_eq_nil_iff]
  intro n hn
  simp [hasKw, builtFor_kw c kw' h' n hn, hne]

theorem filter_hasKw_flatten (c : Config) (kw : String) (kws : List String)
    (hsub : ∀ k ∈ kws, k ∈ modeledKeywords) (hnd : kws.Nodup) :
    ((kws.map (builtFor c)).flatten).filter (hasKw kw)
      = if kw ∈ kws then builtFor c kw else [] := by
  induction kws with
  | nil => simp
  | cons k rest ih =>
    simp only [List.map_cons, List.flatten_cons, List.filter_append]
    rw [List.nodup_cons] at hnd
    have hkmem : k ∈ modeledKeywords := hsub k (List.mem_cons_self _ _)
    have hsubRest : ∀ x ∈ rest, x ∈ modeledKeywords :=
      fun x hx => hsub x (List.mem_cons_of_mem _ hx)
    rw [ih hsubRest hnd.2]
    by_cases hk : kw = k
    · subst hk
      rw [filter_hasKw_builtFor_self c kw hkmem]
      rw [if_neg hnd.1, if_pos (List.mem_cons_self _ _), List.append_nil]
    · rw [filter_hasKw_builtFor_ne c kw k hkmem (fun he => hk he.symm), List.nil_append]
      by_cases hr : kw ∈ rest
      · rw [if_pos hr, if_pos (List.mem_cons_of_mem _ hr)]
      · rw [if_neg hr, if_neg (by simp [List.mem_cons, hk, hr])]

theorem filter_unmodeled_idem (p : Node → Bool) (ns : List Node) :
    (ns.filter p).filter p = ns.filter p := by
  rw [List.filter_filter]
  apply List.filter_congr
  intro x _
  rw [Bool.and_self]

/-- C1: for every modeled keyword, the encode pass (`Apply`) removes every
existing node of that keyword wherever it was, and appends one freshly built
node per current model entity, in the model's present order, at the end of
the node list: the pass decomposes into the untouched unmodeled nodes
followed by all freshly built nodes, the nodes carrying the keyword
afterwards are exactly the per-entity rebuilt ones, and an empty collection
(or nil singleton pointer) leaves zero nodes of that keyword. -/
theorem apply_replaces_modeled_blocks (c : Config) (ns : List Node) (kw : String)
    (hkw : kw ∈ modeledKeywords) :
    applyNodes c ns = ns.filter (fun n => !isModeledNode n) ++ builtAll c ∧
    (applyNodes c ns).filter (hasKw kw) = builtFor c kw ∧
    (builtFor c kw = [] → (applyNodes c ns).filter (hasKw kw) = []) := by
  have hsecond : (applyNodes c ns).filter (hasKw kw) = builtFor c kw := by
    rw [applyNodes_decomp, List.filter_append]
    have hA : (List.filter (fun n => !isModeledNode n) ns).filter (hasKw kw) = [] := by
      rw [List.filter_filter, List.filter_eq_nil_iff]
      intro a _ hcon
      rw [Bool.and_eq_true] at hcon
      obtain ⟨h1, h2⟩ := hcon
      have hmod : isModeledNode a = true := by
        simp only [isModeledNode, List.any_eq_true]
        exact ⟨kw, hkw, h1⟩
      rw [hmod] at h2
      simp at h2
    rw [hA, List.nil_append]
    rw [show builtAll c = (modeledKeywords.map (builtFor c)).flatten from rfl]
    rw [filter_hasKw_flatten c kw modeledKeywords (fun k hk => hk) (by decide), if_pos hkw]
  exact ⟨applyNodes_decomp c ns, hsecond, fun he => by rw [hsecond, he]⟩

/-- C1, witness: the theorem applied to a concrete model, node list and the
modeled keyword `acl`, with both hypotheses discharged by computation. -/
theorem apply_replaces_modeled_blocks_witness :
    "acl" ∈ modeledKeywords ∧
    (applyNodes c1SampleConfig c1SampleNodes
        = c1SampleNodes.filter (fun n => !isModeledNode n) ++ builtAll c1SampleConfig ∧
      (applyNodes c1SampleConfig c1SampleNodes).filter (hasKw ("acl"))
        = builtFor c1SampleConfig ("acl") ∧
      (builtFor c1SampleConfig ("acl") = [] →
        (applyNodes c1SampleConfig c1SampleNodes).filter (hasKw ("acl")) = [])) :=
  ⟨by decide, apply_replaces_modeled_blocks c1SampleConfig c1SampleNodes ("acl") (by decide)⟩

/-- C2: any node whose keyword is not one of the modeled keywords is
present byte-identically after an encode pass, and the relative order of
these unmodeled nodes among themselves is unchanged, regardless of the
model: the unmodeled sub-sequence of the output equals that of the input. -/
theorem apply_preserves_unmodeled_nodes (c : Config) (ns : List Node) :
    (applyNodes c ns).filter (fun n => !isModeledNode n)
      = ns.filter (fun n => !isModeledNode n) := by
  rw [applyNodes_decomp, List.filter_append, filter_unmodeled_idem]
  have hb : (builtAll c).filter (fun n => !isModeledNode n) = [] := by
    rw [List.filter_eq_nil_iff]
    intro n hn
    simp [builtAll_modeled c n hn]
  rw [hb, List.append_nil]

/-- C3: the claimed idempotence `encode(decode(encode(M))) = encode(M)`
fails on the code.  For the model with one ACL whose single element is a
nested one-address list, the first encode emits the ACL body
`\x7b \x7b 10.0.0.0/8; \x7d; \x7d`; decoding splits that raw text on every
semicolon, also inside the inner braces, yielding the nested term plus a
phantom ACL reference `\x7d`, so the second encode emits
`\x7b \x7b 10.0.0.0/8; \x7d; \x7d; \x7d` and the node sets differ. -/
theorem encode_decode_encode_not_idempotent :
    applyNodes idempotenceFailModel []
      = [Node.stmt ("acl") ("acl \"a\"") [Node.raw ("\x7b \x7b 10.0.0.0/8; \x7d; \x7d")]] ∧
    applyNodes (fromFile ⟨applyNodes idempotenceFailModel []⟩) (applyNodes idempotenceFailModel [])
      = [Node.stmt ("acl") ("acl \"a\"") [Node.raw ("\x7b \x7b 10.0.0.0/8; \x7d; \x7d; \x7d")]] ∧
    applyNodes (fromFile ⟨applyNodes idempotenceFailModel []⟩) (applyNodes idempotenceFailModel [])
      ≠ applyNodes idempotenceFailModel [] := by
  exact ⟨by decide, by decide, by decide⟩

/-- C9: `Save` returns an error, and performs neither the encode pass nor
any write, exactly when the `Config` has no backing AST; with a backing AST
it always encodes onto that AST and hands the result to the writer. -/
theorem save_requires_backing_ast (c : Config) (path : String) :
    (c.ast = none →
       c.save path = .err ("namedzone: no underlying AST; call FromFile first")) ∧
    (∀ f, c.ast = some f →
       c.save path = .ok ⟨applyNodes c f.nodes⟩ ({ c with ast := some ⟨applyNodes c f.nodes⟩ })) := by
  constructor
  · intro h
    simp [Config.save, h]
  · intro f h
    simp [Config.save, h, Config.applyE]

/-- C9, witness: the theorem applied to a config without backing AST and to
one with a concrete backing file. -/
theorem save_requires_backing_ast_witness :
    (({} : Config).ast = none ∧
      ({} : Config).save ("named.conf")
        = .err ("namedzone: no underlying AST; call FromFile first")) ∧
    (saveSampleConfig.ast = some saveSampleFile ∧
      saveSampleConfig.save ("named.conf")
        = .ok ⟨applyNodes saveSampleConfig saveSampleFile.nodes⟩
            ({ saveSampleConfig with
                ast := some ⟨applyNodes saveSampleConfig saveSampleFile.nodes⟩ })) :=
  ⟨⟨rfl, (save_requires_backing_ast {} ("named.conf")).1 rfl⟩,
   ⟨rfl, (save_requires_backing_ast saveSampleConfig ("named.conf")).2 saveSampleFile rfl⟩⟩

/-- C10: decode is total and never fails: for every input file, `FromFile`
returns a configuration with a nil error. -/
theorem fromFile_never_errors (f : File) : ∃ cfg, fromFileE f = Except.ok cfg :=
  ⟨fromFile f, rfl⟩

theorem classifyCore_case (f : Nat) (ng : Bool) (p : String)
    (ih : ∀ raw, parseMLAux f raw = decodeMLSpec f raw) :
    (if goHasPre p ("key ") then [MatchTerm.mk ng "" (trimQuotes (goTrimPre p ("key "))) "" []]
     else if goHasPre p ("\x7b") then [MatchTerm.mk ng "" "" "" (parseMLAux f p)]
     else if goContains p ("/") || goCountChar p ':' > 1 || goCountChar p '.' = 3 then
       [MatchTerm.mk ng p "" "" []]
     else [MatchTerm.mk ng "" "" (trimQuotes p) []])
    = [if ng then markNot (classifyCore f p) else classifyCore f p] := by
  rw [classifyCore]
  by_cases h1 : goHasPre p ("key ")
  · cases ng <;> simp [h1, markNot]
  · by_cases h2 : goHasPre p ("\x7b")
    · cases ng <;> simp [h1, h2, markNot, ih]
    · by_cases h3 : (goContains p ("/") || decide (goCountChar p ':' > 1)
          || decide (goCountChar p '.' = 3)) = true
      · cases ng <;> simp [h1, h2, h3, markNot]
      · cases ng <;> simp [h1, h2, h3, markNot]

theorem classify_case (f : Nat) (p0 : String)
    (ih : ∀ raw, parseMLAux f raw = decodeMLSpec f raw) :
    (let pr := if goHasPre p0 ("!") then (true, goTrimSpace (goTrimPre p0 ("!"))) else (false, p0)
     let ng := pr.1
     let p := pr.2
     if goHasPre p ("key ") then [MatchTerm.mk ng "" (trimQuotes (goTrimPre p ("key "))) "" []]
     else if goHasPre p ("\x7b") then [MatchTerm.mk ng "" "" "" (parseMLAux f p)]
     else if goContains p ("/") || goCountChar p ':' > 1 || goCountChar p '.' = 3 then
       [MatchTerm.mk ng p "" "" []]
     else [MatchTerm.mk ng "" "" (trimQuotes p) []])
    = [classifySegment f p0] := by
  rw [classifySegment]
  by_cases hb : goHasPre p0 ("!")
  · simp only [hb, if_true, ite_true]
    exact classifyCore_case f true (goTrimSpace (goTrimPre p0 ("!"))) ih
  · simp only [hb, if_false, ite_false, Bool.false_eq_true]
    exact classifyCore_case f false p0 ih

theorem flatMap_segments (f : Nat) (parts : List String)
    (ih : ∀ raw, parseMLAux f raw = decodeMLSpec f raw) :
    (parts.flatMap (fun q =>
      let p0 := goTrimSpace q
      if p0 = "" then []
      else
        let pr := if goHasPre p0 ("!") then (true, goTrimSpace (goTrimPre p0 ("!"))) else (false, p0)
        let ng := pr.1
        let p := pr.2
        if goHasPre p ("key ") then [MatchTerm.mk ng "" (trimQuotes (goTrimPre p ("key "))) "" []]
        else if goHasPre p ("\x7b") then [MatchTerm.mk ng "" "" "" (parseMLAux f p)]
        else if goContains p ("/") || goCountChar p ':' > 1 || goCountChar p '.' = 3 then
          [MatchTerm.mk ng p "" "" []]
        else [MatchTerm.mk ng "" "" (trimQuotes p) []]))
    = ((parts.map goTrimSpace).filter (fun p => p ≠ "")).map (classifySegment f) := by
  induction parts with
  | nil => rfl
  | cons q rest ihp =>
    rw [List.flatMap_cons, List.map_cons, List.filter_cons, ihp,
        apply_ite (List.map (classifySegment f)), List.map_cons]
    show (let p0 := goTrimSpace q
      if p0 = "" then []
      else
        let pr := if goHasPre p0 ("!") then (true, goTrimSpace (goTrimPre p0 ("!"))) else (false, p0)
        let ng := pr.1
        let p := pr.2
        if goHasPre p ("key ") then [MatchTerm.mk ng "" (trimQuotes (goTrimPre p ("key "))) "" []]
        else if goHasPre p ("\x7b") then [MatchTerm.mk ng "" "" "" (parseMLAux f p)]
        else if goContains p ("/") || goCountChar p ':' > 1 || goCountChar p '.' = 3 then
          [MatchTerm.mk ng p "" "" []]
        else [MatchTerm.mk ng "" "" (trimQuotes p) []]) ++ _ = _
    by_cases h0 : goTrimSpace q = ""
    · rw [if_pos h0]
      conv_rhs => rw [if_neg (show ¬(decide (goTrimSpace q ≠ "") = true) by simp [h0])]
      rfl
    · rw [if_neg h0]
      conv_rhs => rw [if_pos (show decide (goTrimSpace q ≠ "") = true by simp [h0])]
      rw [classify_case f (goTrimSpace q) ih]
      rfl

theorem parseML_eq_spec : ∀ fuel raw, parseMLAux fuel raw = decodeMLSpec fuel raw := by
  intro fuel
  induction fuel with
  | zero => intro raw; simp [parseMLAux, decodeMLSpec]
  | succ f ih =>
    intro raw
    simp only [parseMLAux, decodeMLSpec, segmentsOf]
    exact flatMap_segments f
      (goSplit
        (if goHasPre (goTrimSpace raw) ("\x7b") then
          goTrimSpace (goTrimSuf (goTrimPre (goTrimSpace raw) ("\x7b")) ("\x7d"))
        else goTrimSpace raw) (";")) ih

/-- C4: match-term list decoding classifies every non-empty
semicolon-separated segment in the claimed order — leading `!` sets the
negation flag and the remainder goes through the remaining checks; a
`key ` prefix yields a key reference; a leading brace yields a nested list
decoded recursively; otherwise a segment containing `/`, or more than one
`:`, or exactly three `.`, is a literal address, and any other segment an
ACL reference with surrounding quotes stripped.  `decodeMLSpec` is that
specification verbatim; the source decoder equals it on every input. -/
theorem parseMatchList_classification (raw : String) :
    parseMatchListFromBodyRaw raw = decodeMLSpecTop raw :=
  parseML_eq_spec (raw.data.length + 1) raw

/-- C5, counterexample: controls-channel decoding does not tolerate the
keyword groups in any textual order.  With the groups ordered
`allow ... keys ...` the keys group is swallowed into the allow slice
(`keys` decodes empty), while the reverse order decodes the keys; the two
orders of the same groups decode to different values. -/
theorem controlInet_order_sensitivity :
    (parseControlInet ("inet 1.2.3.4 allow \x7b any; \x7d keys \x7b \"k\"; \x7d")).keys = [] ∧
    (parseControlInet ("inet 1.2.3.4 keys \x7b \"k\"; \x7d allow \x7b any; \x7d")).keys = ["k"] ∧
    parseControlInet ("inet 1.2.3.4 allow \x7b any; \x7d keys \x7b \"k\"; \x7d")
      ≠ parseControlInet ("inet 1.2.3.4 keys \x7b \"k\"; \x7d allow \x7b any; \x7d") := by
  exact ⟨by decide, by decide, by decide⟩

/-- C5 (amended): controls-channel decoding locates each keyword group by
scanning for its marker substring and slices off the rest of the line as
that group's value, consuming `allow` first, then `keys`, then `read-only`
from what precedes.  Groups parse fully only in the order
address/port, read-only, keys, allow (each sliced value extending to the end
of the remaining text); an input whose value contains a marker substring
(here a key name containing ` allow `) is misparsed. -/
theorem controlInet_marker_slicing :
    parseControlInet ("inet 1.2.3.4 port 953 read-only yes keys \x7b \"k\"; \x7d allow \x7b any; \x7d")
      = { address := "1.2.3.4", port := some 953, allow := [MatchTerm.mk false "" "" ("any") []],
          keys := ["k"], readOnly := some true } ∧
    (parseControlInet ("inet 1.2.3.4 allow \x7b any; \x7d keys \x7b \"k\"; \x7d")).allow
      = [MatchTerm.mk false "" "" ("any") [],
         MatchTerm.mk false "" "" ("\x7d keys \x7b \"k") []] ∧
    (parseControlInet ("inet 1.2.3.4 keys \x7b \"my allow key\"; \x7d allow \x7b any; \x7d")).keys
      = ["my"] ∧
    (parseControlInet ("inet 1.2.3.4 keys \x7b \"my allow key\"; \x7d allow \x7b any; \x7d")).allow
      = [MatchTerm.mk false "" "" ("key") [],
         MatchTerm.mk false "" "" ("\x7d allow \x7b any") [],
         MatchTerm.mk false "" "" ("\x7d") []] := by
  exact ⟨by decide, by decide, by decide, by decide⟩

theorem optionsStep_other (op : Options) (n : Node) :
    (optionsStep op n).other = op.other ++ (optionsOverflowEntry n).toList := by
  cases n with
  | raw t => simp [optionsStep, optionsOverflowEntry]
  | stmt kw hr b =>
    by_cases h1 : kw = "directory"
    · subst h1; simp +decide [optionsStep, optionsOverflowEntry, optionsKeywordTable]
    by_cases h2 : kw = "recursion"
    · subst h2; simp +decide [optionsStep, optionsOverflowEntry, optionsKeywordTable]
    by_cases h3 : kw = "allow-query"
    · subst h3; simp +decide [optionsStep, optionsOverflowEntry, optionsKeywordTable]
    by_cases h4 : kw = "allow-transfer"
    · subst h4; simp +decide [optionsStep, optionsOverflowEntry, optionsKeywordTable]
    by_cases h5 : kw = "allow-update"
    · subst h5; simp +decide [optionsStep, optionsOverflowEntry, optionsKeywordTable]
    by_cases h6 : kw = "listen-on"
    · subst h6; simp +decide [optionsStep, optionsOverflowEntry, optionsKeywordTable]
    by_cases h7 : kw = "listen-on-v6"
    · subst h7; simp +decide [optionsStep, optionsOverflowEntry, optionsKeywordTable]
    by_cases h8 : kw = "forwarders"
    · subst h8; simp +decide [optionsStep, optionsOverflowEntry, optionsKeywordTable]
    by_cases h9 : kw = "forward"
    · subst h9
      cases hgf : goFields (stmtRawLine hr) <;>
        simp +decide [optionsStep, optionsOverflowEntry, optionsKeywordTable, hgf]
    by_cases h10 : kw = "dnssec-validation"
    · subst h10
      cases hgf : goFields (stmtRawLine hr) <;>
        simp +decide [optionsStep, optionsOverflowEntry, optionsKeywordTable, hgf]
    by_cases h11 : kw = "rrset-order"
    · subst h11; simp +decide [optionsStep, optionsOverflowEntry, optionsKeywordTable]
    · simp [optionsStep, optionsOverflowEntry, optionsKeywordTable, h1, h2, h3, h4, h5,
        h6, h7, h8, h9, h10, h11]

theorem parseOptions_other_aux (body : List Node) (acc : Options) :
    (body.foldl optionsStep acc).other = acc.other ++ body.filterMap optionsOverflowEntry := by
  induction body generalizing acc with
  | nil => simp
  | cons n rest ih =>
    rw [List.foldl_cons, ih (optionsStep acc n), optionsStep_other, List.filterMap_cons]
    cases optionsOverflowEntry n <;> simp

/-- C6: every options body statement whose keyword is not in the fixed
modeled table is appended to the overflow bag as a name/raw-text pair, in
order, rather than dropped, and the options encoder re-emits every overflow
entry as a body statement (`<name> <raw>`) after the modeled fields. -/
theorem parseOptions_overflow_bag (body : List Node) (o : Options) :
    (parseOptions body).other = body.filterMap optionsOverflowEntry ∧
    buildOptionsBody o
      = buildOptionsBody ({ o with other := [] })
          ++ o.other.map (fun kv => mkSimpleStmt (kv.name ++ " " ++ kv.raw)) := by
  constructor
  · rw [parseOptions, parseOptions_other_aux]
    rfl
  · simp [buildOptionsBody]

theorem taStep_items (ta : List TrustAnchorItem) (n : Node) :
    taStep ta n = ta ++ (trustAnchorEntry n).toList := by
  cases n with
  | raw t => simp [taStep, trustAnchorEntry]
  | stmt kw hr b =>
    cases hgf : goFields (stmtRawLine hr) with
    | nil => simp [taStep, trustAnchorEntry, hgf]
    | cons f0 rest =>
      simp only [taStep, trustAnchorEntry, hgf]
      split_ifs <;> simp

theorem parseTrustAnchors_items_aux (body : List Node) (acc : List TrustAnchorItem) :
    body.foldl taStep acc = acc ++ body.filterMap trustAnchorEntry := by
  induction body generalizing acc with
  | nil => simp
  | cons n rest ih =>
    rw [List.foldl_cons, ih (taStep acc n), taStep_items, List.filterMap_cons]
    cases trustAnchorEntry n <;> simp

/-- C7: trust-anchor decoding treats each body line as a quoted name
(first whitespace field, quotes stripped) followed by the rest of the line,
classifies the entry as a DS record exactly when the rest contains the
substring `ds`, else as a DNSKEY record when it contains `key`, and
silently drops a line matching neither. -/
theorem parseTrustAnchors_classification (body : List Node) :
    (parseTrustAnchors body).items = body.filterMap trustAnchorEntry := by
  show body.foldl taStep [] = _
  rw [parseTrustAnchors_items_aux]
  rfl

/-- C8 (amended): on match-list encode an ACL-reference name is re-quoted
exactly when it contains one of `.`, `-`, `*` or a space, and emitted bare
otherwise; only this character test, not the original quoting style, is
reconstructed. -/
theorem serializeMatchList_quoting (name : String) :
    serializeMatchList [MatchTerm.mk false "" "" name []]
      = "\x7b " ++ (if needsQuotes name then "\"" ++ name ++ "\"" else name) ++ "; \x7d" ∧
    (needsQuotes name = true ↔ ∃ c ∈ name.data, c ∈ ['.', '-', '*', ' ']) := by
  constructor
  · by_cases h : name = ""
    · subst h; decide
    · apply String.ext
      by_cases hq : needsQuotes name = true <;>
        simp [serializeMatchList, serializeTerms, serializeTerm, h, hq, String.data_append]
  · simp [needsQuotes, goContainsAny, List.any_eq_true]

/-- C8, counterexample: `my-acl` is a bare alphanumeric/hyphen token, yet
the encoder emits it quoted, so the claim that such names are emitted
without quotes is false. -/
theorem serializeMatchList_quoting_counterexample :
    (∀ c ∈ ("my-acl").data, c.isAlphanum || c = '-') ∧
    serializeMatchList [MatchTerm.mk false "" "" ("my-acl") []] = "\x7b \"my-acl\"; \x7d" := by
  exact ⟨by decide, by decide⟩

end Namedzone
